import Mathlib

/-!
Verification of the SQL-to-relational-algebra converter
(`src/components/relational-algebra-converter.tsx`).

The converter is a pattern-matching text transform built from JavaScript
regular expressions.  We model it shallowly:

* strings are Lean `String`s (lists of characters), with the JavaScript
  string primitives used by the source (`trim`, `toUpperCase`,
  `split(",")`, `split(/\s+/)`, `replace`) re-implemented faithfully;
* the JavaScript regular expressions of the source are translated, node
  by node, into a small regular-expression syntax `RE`, and executed by a
  backtracking matcher `runRE` that enumerates match alternatives in the
  same priority order as the JavaScript engine (ordered alternation,
  greedy and lazy quantifiers, leftmost match, `$` end anchor,
  zero-width lookahead);
* `parseSQL` and `convertToRelationalAlgebra` are then direct
  transcriptions of the two source functions.

All quantifiers in the source regexes range over single-character
classes, so the matcher's quantifier nodes carry a character class; this
keeps the matcher total and structurally recursive.
-/

namespace RelAlg

/-- JavaScript whitespace (the set matched by `\s` and trimmed by
`String.prototype.trim`): tab, LF, VT, FF, CR, space, NBSP, Ogham space
mark, the en-quad .. hair-space block, line separator, paragraph
separator, narrow NBSP, medium mathematical space, ideographic space,
BOM. -/
def jsWhitespace (c : Char) : Bool :=
  c = '\t' ∨ c = '\n' ∨ c = '\u000B' ∨ c = '\u000C' ∨ c = '\r' ∨ c = ' ' ∨
  c = '\u00A0' ∨ c = '\u1680' ∨ ('\u2000' ≤ c ∧ c ≤ '\u200A') ∨
  c = '\u2028' ∨ c = '\u2029' ∨ c = '\u202F' ∨ c = '\u205F' ∨
  c = '\u3000' ∨ c = '\uFEFF'

/-- The class matched by `.` (no `s` flag): any character except the
line terminators LF, CR, U+2028, U+2029. -/
def jsDot (c : Char) : Bool :=
  ¬ (c = '\n' ∨ c = '\r' ∨ c = '\u2028' ∨ c = '\u2029')

/-- The class matched by `\w`: ASCII letters, digits, underscore. -/
def jsWord (c : Char) : Bool :=
  ('A' ≤ c ∧ c ≤ 'Z') ∨ ('a' ≤ c ∧ c ≤ 'z') ∨ ('0' ≤ c ∧ c ≤ '9') ∨ c = '_'

/-- The class matched by `[^;]`. -/
def jsNotSemi (c : Char) : Bool := ¬ c = ';'

/-- Model of `String.prototype.trim`: drop leading and trailing
whitespace. -/
def jsTrim (l : List Char) : List Char :=
  ((l.dropWhile jsWhitespace).reverse.dropWhile jsWhitespace).reverse

/-- Leading-whitespace trim only (used to state claims phrased in terms
of "after trimming leading whitespace"). -/
def jsTrimStart (l : List Char) : List Char :=
  l.dropWhile jsWhitespace

/-- Literal prefix test, character by character. -/
def beginsWith : List Char → List Char → Bool
  | [], _ => true
  | _ :: _, [] => false
  | p :: ps, c :: cs => if p = c then beginsWith ps cs else false

/-- Model of `String.prototype.split(sep)` for a single-character
separator: always returns at least one (possibly empty) piece. -/
def jsSplitChar (sep : Char) : List Char → List (List Char)
  | [] => [[]]
  | c :: t =>
    if c = sep then [] :: jsSplitChar sep t
    else
      match jsSplitChar sep t with
      | [] => [[c]]
      | h :: r => (c :: h) :: r

mutual

/-- Worker for `jsSplitWs`: `acc` holds the current piece reversed. -/
def jsSplitWsAux : List Char → List Char → List (List Char)
  | acc, [] => [acc.reverse]
  | acc, c :: t =>
    if jsWhitespace c then acc.reverse :: jsSplitWsSkip t
    else jsSplitWsAux (c :: acc) t

/-- Worker skipping a maximal whitespace run; a run at end of input
contributes a trailing empty piece, as in JavaScript. -/
def jsSplitWsSkip : List Char → List (List Char)
  | [] => [[]]
  | c :: t =>
    if jsWhitespace c then jsSplitWsSkip t
    else jsSplitWsAux [c] t

end

/-- Model of `String.prototype.split(/\s+/)`: separators are maximal
whitespace runs; leading and trailing runs produce empty pieces. -/
def jsSplitWs (l : List Char) : List (List Char) :=
  jsSplitWsAux [] l

/-- Model of `.replace(/\s+/g, " ")`: every maximal whitespace run
becomes one space.  (The preceding `.replace(/=/g, "=")` in the source
is the identity and needs no model.)  The flag records whether the
previous character was part of a whitespace run. -/
def collapseWsAux : Bool → List Char → List Char
  | _, [] => []
  | inRun, c :: t =>
    if jsWhitespace c then
      if inRun then collapseWsAux true t else ' ' :: collapseWsAux true t
    else c :: collapseWsAux false t

/-- Regular-expression syntax covering exactly the constructs used by the
source's regexes.  Quantifiers apply to single-character classes only,
as they do in the source. -/
inductive RE where
  /-- a single character from a class -/
  | cls (p : Char → Bool)
  /-- a case-insensitive literal (the `i` flag) -/
  | istr (s : List Char)
  /-- concatenation -/
  | seq (a b : RE)
  /-- ordered alternation -/
  | alt (a b : RE)
  /-- greedy option -/
  | opt (a : RE)
  /-- lazy one-or-more of a class -/
  | plusL (p : Char → Bool)
  /-- greedy one-or-more of a class -/
  | plusG (p : Char → Bool)
  /-- greedy zero-or-more of a class -/
  | starG (p : Char → Bool)
  /-- capturing group -/
  | grp (a : RE)
  /-- the end anchor (no `m` flag) -/
  | eos
  /-- zero-width lookahead -/
  | look (a : RE)

/-- Case-insensitive literal consumption (JavaScript `i`-flag
canonicalisation by upper-casing; ASCII suffices for the keywords
involved). -/
def ciConsume : List Char → List Char → Option (List Char)
  | [], l => some l
  | _ :: _, [] => none
  | p :: ps, c :: cs =>
    if p.toUpper = c.toUpper then ciConsume ps cs else none

/-- Suffixes of the input after consuming 1, 2, … characters of class
`p`, shortest consumption first (the lazy order). -/
def lazySuffixes (p : Char → Bool) : List Char → List (List Char)
  | [] => []
  | c :: t => if p c then t :: lazySuffixes p t else []

/-- The backtracking matcher: all ways the regex can match a prefix of
`s`, as pairs (remaining suffix, captured groups in order), listed in
the JavaScript engine's backtracking priority order.  The head of the
list is the match JavaScript reports. -/
def runRE : RE → List Char → List (List Char × List (List Char))
  | RE.cls p, s =>
    match s with
    | [] => []
    | c :: t => if p c then [(t, [])] else []
  | RE.istr w, s =>
    match ciConsume w s with
    | some t => [(t, [])]
    | none => []
  | RE.seq a b, s =>
    (runRE a s).flatMap (fun r1 =>
      (runRE b r1.1).map (fun r2 => (r2.1, r1.2 ++ r2.2)))
  | RE.alt a b, s => runRE a s ++ runRE b s
  | RE.opt a, s => runRE a s ++ [(s, [])]
  | RE.plusL p, s => (lazySuffixes p s).map (fun t => (t, []))
  | RE.plusG p, s => ((lazySuffixes p s).map (fun t => (t, []))).reverse
  | RE.starG p, s =>
    ((s :: lazySuffixes p s).map (fun t => (t, []))).reverse
  | RE.grp a, s =>
    (runRE a s).map (fun r => (r.1, r.2 ++ [s.take (s.length - r.1.length)]))
  | RE.eos, s =>
    match s with
    | [] => [([], [])]
    | _ :: _ => []
  | RE.look a, s =>
    match runRE a s with
    | [] => []
    | _ :: _ => [(s, [])]

/-- Leftmost search, as `String.prototype.match` without the `g` flag:
try the regex at every start position left to right; report (matched
text, suffix after the match, captures). -/
def searchRE (r : RE) : List Char → Option (List Char × List Char × List (List Char))
  | [] =>
    match (runRE r []).head? with
    | some (suf, caps) => some ([], suf, caps)
    | none => none
  | c :: t =>
    match (runRE r (c :: t)).head? with
    | some (suf, caps) =>
      some ((c :: t).take ((c :: t).length - suf.length), suf, caps)
    | none => searchRE r t

/-- Fuelled worker for global matching. -/
def matchAllAux (r : RE) : Nat → List Char → List (List Char)
  | 0, _ => []
  | fuel + 1, s =>
    match searchRE r s with
    | none => []
    | some (m, suf, _) =>
      match m with
      | [] =>
        [] :: (match suf with
               | [] => []
               | _ :: t => matchAllAux r fuel t)
      | _ :: _ => m :: matchAllAux r fuel suf

/-- Model of `String.prototype.match` with the `g` flag: the list of
matched substrings, left to right, each search resuming after the
previous match (a zero-length match advances one position).  The fuel
bounds the number of matches; `length + 1` always suffices. -/
def jsMatchAll (r : RE) (s : List Char) : List (List Char) :=
  matchAllAux r (s.length + 1) s

/-- Capture group access, as the source's `match[1]`, `parts[2]`, …
(index 0 here is the first capturing group). -/
def capAt (caps : List (List Char)) (i : Nat) : List Char :=
  caps.getD i []

/-- Right-nested concatenation of a list of regex nodes. -/
def seqAll : List RE → RE
  | [] => RE.eos
  | [r] => r
  | r :: rest => RE.seq r (seqAll rest)

/-- Ordered alternation of a list of regex nodes (left branch first, as
written in the source). -/
def altAll : List RE → RE
  | [] => RE.eos
  | [r] => r
  | r :: rest => RE.alt r (altAll rest)

/-- Shorthand for a case-insensitive keyword literal. -/
def kw (s : String) : RE := RE.istr s.data

/-- Shorthand for the node matching a whitespace run, as the source's
recurring fragment. -/
def wsPlus : RE := RE.plusG jsWhitespace

/-- The regex of line 56,
`/SELECT\s+(?:DISTINCT\s+)?(.+?)\s+FROM/i`. -/
def selectRE : RE :=
  seqAll [kw "SELECT", wsPlus, RE.opt (RE.seq (kw "DISTINCT") wsPlus),
          RE.grp (RE.plusL jsDot), wsPlus, kw "FROM"]

/-- The regex of line 72,
`/FROM\s+(.+?)(?:\s+WHERE|\s+JOIN|\s+GROUP\s+BY|\s+ORDER\s+BY|\s+HAVING|$)/i`. -/
def fromRE : RE :=
  seqAll [kw "FROM", wsPlus, RE.grp (RE.plusL jsDot),
    altAll [RE.seq wsPlus (kw "WHERE"),
            RE.seq wsPlus (kw "JOIN"),
            seqAll [wsPlus, kw "GROUP", wsPlus, kw "BY"],
            seqAll [wsPlus, kw "ORDER", wsPlus, kw "BY"],
            RE.seq wsPlus (kw "HAVING"),
            RE.eos]]

/-- The terminator group of the WHERE regex of line 85:
`(?:\s+GROUP\s+BY|\s+ORDER\s+BY|\s+HAVING|$)`. -/
def whereBoundary : RE :=
  altAll [seqAll [wsPlus, kw "GROUP", wsPlus, kw "BY"],
          seqAll [wsPlus, kw "ORDER", wsPlus, kw "BY"],
          RE.seq wsPlus (kw "HAVING"),
          RE.eos]

/-- The regex of line 85,
`/WHERE\s+(.+?)(?:\s+GROUP\s+BY|\s+ORDER\s+BY|\s+HAVING|$)/i`. -/
def whereRE : RE :=
  seqAll [kw "WHERE", wsPlus, RE.grp (RE.plusL jsDot), whereBoundary]

/-- The eight join-keyword phrases, in the order written in the source
alternations. -/
def joinKeywords : List RE :=
  [RE.seq (kw "INNER") (RE.seq wsPlus (kw "JOIN")),
   seqAll [kw "LEFT", wsPlus, kw "OUTER", wsPlus, kw "JOIN"],
   seqAll [kw "RIGHT", wsPlus, kw "OUTER", wsPlus, kw "JOIN"],
   seqAll [kw "FULL", wsPlus, kw "OUTER", wsPlus, kw "JOIN"],
   RE.seq (kw "LEFT") (RE.seq wsPlus (kw "JOIN")),
   RE.seq (kw "RIGHT") (RE.seq wsPlus (kw "JOIN")),
   RE.seq (kw "FULL") (RE.seq wsPlus (kw "JOIN")),
   kw "JOIN"]

/-- The lookahead body of the join regex of lines 90-91: a whitespace
run, then a join keyword, `WHERE`, `GROUP BY`, `ORDER BY`, `HAVING`, or
the end anchor.  Note the anchor stands inside the group that follows
the mandatory `\s+`. -/
def joinBoundary : RE :=
  RE.seq wsPlus
    (altAll (joinKeywords ++
      [kw "WHERE",
       seqAll [kw "GROUP", wsPlus, kw "BY"],
       seqAll [kw "ORDER", wsPlus, kw "BY"],
       kw "HAVING",
       RE.eos]))

/-- The global join regex of lines 90-91:
keyword phrase, `\s+(\w+)(?:\s+\w+)?\s+ON\s+([^;]+?)`, then the
lookahead `(?=\s+(?:…|$))`. -/
def joinRE : RE :=
  seqAll [altAll joinKeywords, wsPlus, RE.grp (RE.plusG jsWord),
          RE.opt (RE.seq wsPlus (RE.plusG jsWord)),
          wsPlus, kw "ON", wsPlus,
          RE.grp (RE.plusL jsNotSemi),
          RE.look joinBoundary]

/-- The per-match regex of line 97:
`/(?:…join keywords…)\s+(\w+)(?:\s+\w+)?\s+ON\s+(.+)/i`. -/
def joinPartsRE : RE :=
  seqAll [altAll joinKeywords, wsPlus, RE.grp (RE.plusG jsWord),
          RE.opt (RE.seq wsPlus (RE.plusG jsWord)),
          wsPlus, kw "ON", wsPlus,
          RE.grp (RE.plusG jsDot)]

/-- The join-type regex of line 102: the keyword alternation as one
capturing group. -/
def joinTypeRE : RE := RE.grp (altAll joinKeywords)

/-- The terminator group of the GROUP BY regex of line 117:
`(?:\s+HAVING|\s+ORDER\s+BY|$)`. -/
def groupByBoundary : RE :=
  altAll [RE.seq wsPlus (kw "HAVING"),
          seqAll [wsPlus, kw "ORDER", wsPlus, kw "BY"],
          RE.eos]

/-- The regex of line 117,
`/GROUP\s+BY\s+(.+?)(?:\s+HAVING|\s+ORDER\s+BY|$)/i`. -/
def groupByRE : RE :=
  seqAll [kw "GROUP", wsPlus, kw "BY", wsPlus, RE.grp (RE.plusL jsDot),
    groupByBoundary]

/-- The terminator group of the ORDER BY regex of line 124:
`(?:;|$)`. -/
def orderByBoundary : RE :=
  RE.alt (RE.cls (fun c => c = ';')) RE.eos

/-- The regex of line 124, `/ORDER\s+BY\s+(.+?)(?:;|$)/i`. -/
def orderByRE : RE :=
  seqAll [kw "ORDER", wsPlus, kw "BY", wsPlus, RE.grp (RE.plusL jsDot),
    orderByBoundary]

/-- The terminator group of the HAVING regex of line 138:
`(?:\s+ORDER\s+BY|$)`. -/
def havingBoundary : RE :=
  RE.alt (seqAll [wsPlus, kw "ORDER", wsPlus, kw "BY"]) RE.eos

/-- The regex of line 138, `/HAVING\s+(.+?)(?:\s+ORDER\s+BY|$)/i`. -/
def havingRE : RE :=
  seqAll [kw "HAVING", wsPlus, RE.grp (RE.plusL jsDot), havingBoundary]

/-- The anchored regex of the column clean-up on line 67,
`replace(/^.*\./, "")`: a greedy run of `.`-chars followed by a literal
dot, matched at the start of the string; if it matches, the matched
prefix is removed. -/
def stripQualifier (l : List Char) : List Char :=
  match (runRE (RE.seq (RE.starG jsDot) (RE.cls (fun c => c = '.'))) l).head? with
  | some (suf, _) => suf
  | none => l

/-- The join record of the source's `ParsedQuery` interface
(lines 24-28): `{ type, table, condition }`. -/
structure JoinClause where
  type : String
  table : String
  condition : String
deriving DecidableEq

/-- An `orderBy` entry of the source's `ParsedQuery` interface
(lines 30-33): `{ column, direction }`. -/
structure OrderItem where
  column : String
  direction : String
deriving DecidableEq

/-- The source's `ParsedQuery` interface (lines 19-35). -/
structure ParsedQuery where
  operation : String
  tables : List String
  columns : List String
  conditions : List String
  joins : List JoinClause
  groupBy : List String
  orderBy : List OrderItem
  having : List String
deriving DecidableEq

/-- The column clean-up of lines 64-68: trim, strip the table
qualifier, take the first whitespace-delimited token. -/
def cleanColumn (col : List Char) : String :=
  let trimmed := jsTrim col
  String.mk ((jsSplitWs (stripQualifier trimmed)).headD [])

/-- The table clean-up of lines 77-81: trim, take the first
whitespace-delimited token (dropping the alias). -/
def cleanTable (tb : List Char) : String :=
  let trimmed := jsTrim tb
  String.mk ((jsSplitWs trimmed).headD [])

/-- The `orderBy` item parser of lines 126-133: first token is the
column; direction is DESC exactly when a second token upper-cases to
"DESC". -/
def parseOrderItem (col : List Char) : OrderItem :=
  let trimmed := jsTrim col
  let parts := jsSplitWs trimmed
  let column := String.mk (parts.headD [])
  let direction :=
    match parts[1]? with
    | some second =>
      if second.map Char.toUpper = "DESC".data then "DESC" else "ASC"
    | none => "ASC"
  { column := column, direction := direction }

/-- One join match of lines 95-111: rerun the parts regex on the
matched substring; on success build the record (type from the type
regex, upper-cased, falling back to "JOIN"; condition trimmed),
otherwise drop the match. -/
def parseJoinMatch (m : List Char) : Option JoinClause :=
  match searchRE joinPartsRE m with
  | some parts =>
    let ty :=
      match searchRE joinTypeRE m with
      | some tyMatch =>
        let c := capAt tyMatch.2.2 0
        if c = [] then "JOIN".data else c
      | none => "JOIN".data
    some { type := String.mk (ty.map Char.toUpper),
           table := String.mk (capAt parts.2.2 0),
           condition := String.mk (jsTrim (capAt parts.2.2 1)) }
  | none => none

/-- The source's `parseSQL` (lines 45-155).  The `try`/`catch` of the
source cannot fire (no statement in the block throws), so the only
`null` results are the three explicit ones: not starting with SELECT,
no SELECT-clause match, no FROM-clause match. -/
def parseSQL (query : String) : Option ParsedQuery :=
  let trimmedQuery := jsTrim query.data
  let upperQuery := trimmedQuery.map Char.toUpper
  if beginsWith ("SELECT".data) upperQuery then
    match searchRE selectRE trimmedQuery with
    | none => none
    | some selMatch =>
      let columnsStr := capAt selMatch.2.2 0
      let columns :=
        if columnsStr = "*".data then ["*"]
        else (jsSplitChar ',' columnsStr).map cleanColumn
      match searchRE fromRE trimmedQuery with
      | none => none
      | some fromMatch =>
        let tables := (jsSplitChar ',' (capAt fromMatch.2.2 0)).map cleanTable
        let conditions :=
          match searchRE whereRE trimmedQuery with
          | some whereMatch => [String.mk (jsTrim (capAt whereMatch.2.2 0))]
          | none => []
        let joins := (jsMatchAll joinRE trimmedQuery).filterMap parseJoinMatch
        let groupBy :=
          match searchRE groupByRE trimmedQuery with
          | some groupByMatch =>
            (jsSplitChar ',' (capAt groupByMatch.2.2 0)).map
              (fun c => String.mk (jsTrim c))
          | none => []
        let orderBy :=
          match searchRE orderByRE trimmedQuery with
          | some orderByMatch =>
            (jsSplitChar ',' (capAt orderByMatch.2.2 0)).map parseOrderItem
          | none => []
        let having :=
          match searchRE havingRE trimmedQuery with
          | some havingMatch => [String.mk (jsTrim (capAt havingMatch.2.2 0))]
          | none => []
        some { operation := "SELECT", tables := tables, columns := columns,
               conditions := conditions, joins := joins, groupBy := groupBy,
               orderBy := orderBy, having := having }
  else none

/-- Lines 161-166: the base relation is the single table, or the
parenthesised Cartesian product of all tables joined with " × ". -/
def baseRelation (tables : List String) : String :=
  if tables.length = 1 then tables.headD ""
  else "(" ++ String.intercalate " × " tables ++ ")"

/-- Lines 170-177: the join symbol is chosen by exact comparison of the
stored `type` string. -/
def joinSymbol (t : String) : String :=
  if t = "LEFT JOIN" ∨ t = "LEFT OUTER JOIN" then "⟕"
  else if t = "RIGHT JOIN" ∨ t = "RIGHT OUTER JOIN" then "⟖"
  else if t = "FULL JOIN" ∨ t = "FULL OUTER JOIN" then "⟗"
  else "⋈"

/-- Lines 180-182: the join condition with whitespace runs collapsed
(the `replace(/=/g, "=")` step is the identity). -/
def renderJoinCondition (condition : String) : String :=
  String.mk (collapseWsAux false condition.data)

/-- Lines 179-183: one step of the join fold. -/
def applyJoin (acc : String) (j : JoinClause) : String :=
  "(" ++ acc ++ " " ++ joinSymbol j.type ++ "[" ++
    renderJoinCondition j.condition ++ "] " ++ j.table ++ ")"

/-- Lines 168-184: the `for … of parsed.joins` loop, i.e. a left fold
over the joins in extraction order. -/
def applyJoins (joins : List JoinClause) (acc : String) : String :=
  joins.foldl applyJoin acc

/-- Lines 186-190: the WHERE selection. -/
def applySelection (conditions : List String) (acc : String) : String :=
  if 0 < conditions.length then
    "σ[" ++ String.intercalate " ∧ " conditions ++ "](" ++ acc ++ ")"
  else acc

/-- Lines 192-196: grouping. -/
def applyGrouping (groupBy : List String) (acc : String) : String :=
  if 0 < groupBy.length then
    "γ[" ++ String.intercalate ", " groupBy ++ "](" ++ acc ++ ")"
  else acc

/-- Lines 198-202: the HAVING selection. -/
def applyHaving (having : List String) (acc : String) : String :=
  if 0 < having.length then
    "σ[" ++ String.intercalate " ∧ " having ++ "](" ++ acc ++ ")"
  else acc

/-- Lines 204-208: projection, applied only when `columns` is non-empty
and does not contain the wildcard. -/
def applyProjection (columns : List String) (acc : String) : String :=
  if 0 < columns.length ∧ ¬ columns.contains "*" then
    "π[" ++ String.intercalate ", " columns ++ "](" ++ acc ++ ")"
  else acc

/-- Lines 210-216: ordering. -/
def applyOrdering (orderBy : List OrderItem) (acc : String) : String :=
  if 0 < orderBy.length then
    "τ[" ++
      String.intercalate ", "
        (orderBy.map (fun ob => ob.column ++ " " ++ ob.direction)) ++
      "](" ++ acc ++ ")"
  else acc

/-- The source's `convertToRelationalAlgebra` (lines 158-219): the
accumulator `result` passes through the seven steps in the source's
fixed order. -/
def convertToRelationalAlgebra (parsed : ParsedQuery) : String :=
  applyOrdering parsed.orderBy
    (applyProjection parsed.columns
      (applyHaving parsed.having
        (applyGrouping parsed.groupBy
          (applySelection parsed.conditions
            (applyJoins parsed.joins (baseRelation parsed.tables))))))

/-- The whole pipeline, extraction then rendering, as the component's
effect (lines 228-239). -/
def parseAndRender (query : String) : Option String :=
  (parseSQL query).map convertToRelationalAlgebra

set_option maxRecDepth 10000

/-! ### Helper lemmas -/

/-- Splitting on a character always yields at least one piece
(the model of JavaScript split never returns an empty array). -/
theorem jsSplitChar_ne_nil (sep : Char) (l : List Char) :
    jsSplitChar sep l ≠ [] := by
  induction l with
  | nil => simp [jsSplitChar]
  | cons c t ih =>
    simp only [jsSplitChar]
    split
    · simp
    · split
      · simp
      · simp

/-- The fully trimmed string extends to the start-trimmed string by a
(whitespace) suffix. -/
theorem jsTrimStart_decomp (l : List Char) :
    ∃ u, jsTrimStart l = jsTrim l ++ u := by
  refine ⟨((l.dropWhile jsWhitespace).reverse.takeWhile jsWhitespace).reverse, ?_⟩
  unfold jsTrim jsTrimStart
  conv_lhs => rw [← List.reverse_reverse (l.dropWhile jsWhitespace),
    ← List.takeWhile_append_dropWhile (p := jsWhitespace)
      (l := (l.dropWhile jsWhitespace).reverse)]
  rw [List.reverse_append]

/-- A literal prefix of a list is a literal prefix of any extension. -/
theorem beginsWith_append (p a u : List Char) (h : beginsWith p a = true) :
    beginsWith p (a ++ u) = true := by
  induction p generalizing a with
  | nil => simp [beginsWith]
  | cons x xs ih =>
    cases a with
    | nil => simp [beginsWith] at h
    | cons c cs =>
      simp only [beginsWith, List.cons_append] at h ⊢
      split at h
      · rename_i hxc
        rw [if_pos hxc]
        exact ih cs h
      · exact absurd h (by simp)

/-! ### Claims -/

/-- Claim C1: for every ParsedQuery produced by extraction from a
query in which the WHERE, GROUP BY, HAVING and ORDER BY clauses were all
found, the rendered expression nests the operators in exactly the fixed
order sort, projection, HAVING-selection, grouping, WHERE-selection,
with the joins folded onto the base relation innermost — independently
of where the clauses stood in the source text, since rendering depends
only on the extracted record. -/
theorem claim1_operator_order (q : String) (p : ParsedQuery)
    (_hq : parseSQL q = some p)
    (h1 : p.conditions ≠ []) (h2 : p.groupBy ≠ [])
    (h3 : p.having ≠ []) (h4 : p.orderBy ≠ []) :
    convertToRelationalAlgebra p =
      "τ[" ++
        String.intercalate ", "
          (p.orderBy.map (fun ob => ob.column ++ " " ++ ob.direction)) ++
      "](" ++
        applyProjection p.columns
          ("σ[" ++ String.intercalate " ∧ " p.having ++ "](" ++
            ("γ[" ++ String.intercalate ", " p.groupBy ++ "](" ++
              ("σ[" ++ String.intercalate " ∧ " p.conditions ++ "](" ++
                applyJoins p.joins (baseRelation p.tables) ++ ")") ++
            ")") ++
          ")") ++
      ")" := by
  have hs : ∀ acc, applySelection p.conditions acc =
      "σ[" ++ String.intercalate " ∧ " p.conditions ++ "](" ++ acc ++ ")" := by
    intro acc
    unfold applySelection
    rw [if_pos (List.length_pos.mpr h1)]
  have hg : ∀ acc, applyGrouping p.groupBy acc =
      "γ[" ++ String.intercalate ", " p.groupBy ++ "](" ++ acc ++ ")" := by
    intro acc
    unfold applyGrouping
    rw [if_pos (List.length_pos.mpr h2)]
  have hh : ∀ acc, applyHaving p.having acc =
      "σ[" ++ String.intercalate " ∧ " p.having ++ "](" ++ acc ++ ")" := by
    intro acc
    unfold applyHaving
    rw [if_pos (List.length_pos.mpr h3)]
  have ho : ∀ acc, applyOrdering p.orderBy acc =
      "τ[" ++
        String.intercalate ", "
          (p.orderBy.map (fun ob => ob.column ++ " " ++ ob.direction)) ++
      "](" ++ acc ++ ")" := by
    intro acc
    unfold applyOrdering
    rw [if_pos (List.length_pos.mpr h4)]
  unfold convertToRelationalAlgebra
  rw [hs, hg, hh, ho]

/-- Witness for C1 at a concrete query carrying all four clauses. -/
theorem claim1_operator_order_witness :
    parseSQL "SELECT a FROM T WHERE b GROUP BY c HAVING d ORDER BY e" =
      some ⟨"SELECT", ["T"], ["a"], ["b"], [], ["c"], [⟨"e", "ASC"⟩], ["d"]⟩ ∧
    convertToRelationalAlgebra
      ⟨"SELECT", ["T"], ["a"], ["b"], [], ["c"], [⟨"e", "ASC"⟩], ["d"]⟩ =
      "τ[e ASC](π[a](σ[d](γ[c](σ[b](T)))))" :=
  ⟨by decide,
   (claim1_operator_order
      "SELECT a FROM T WHERE b GROUP BY c HAVING d ORDER BY e"
      ⟨"SELECT", ["T"], ["a"], ["b"], [], ["c"], [⟨"e", "ASC"⟩], ["d"]⟩
      (by decide) (by decide) (by decide) (by decide) (by decide)).trans
    (by decide)⟩

/-- Claim C2 (code bug): on the input
"SELECT e.Name, d.DepartmentName FROM EMPLOYEE e JOIN DEPARTMENT d ON
e.DepartmentID = d.ID" — the very query the component lists among its
own example queries — the join is silently dropped and the result is
"π[Name, DepartmentName](EMPLOYEE)", not the documented
"π[Name, DepartmentName]((EMPLOYEE ⋈[e.DepartmentID = d.ID]
DEPARTMENT))".  The join regex's lookahead places its mandatory
whitespace run before the group containing the end-anchor alternative,
so a query whose ON condition ends the (trimmed) input can never
satisfy it; appending a WHERE clause makes the very same join match. -/
theorem claim2_join_dropped_at_end :
    parseSQL "SELECT e.Name, d.DepartmentName FROM EMPLOYEE e JOIN DEPARTMENT d ON e.DepartmentID = d.ID" =
      some ⟨"SELECT", ["EMPLOYEE"], ["Name", "DepartmentName"],
            [], [], [], [], []⟩ ∧
    parseAndRender "SELECT e.Name, d.DepartmentName FROM EMPLOYEE e JOIN DEPARTMENT d ON e.DepartmentID = d.ID" =
      some "π[Name, DepartmentName](EMPLOYEE)" ∧
    parseAndRender "SELECT e.Name, d.DepartmentName FROM EMPLOYEE e JOIN DEPARTMENT d ON e.DepartmentID = d.ID WHERE x = 1" =
      some "π[Name, DepartmentName](σ[x = 1]((EMPLOYEE ⋈[e.DepartmentID = d.ID] DEPARTMENT)))" :=
  ⟨by decide, by decide, by decide⟩

/-- Claim C3: any input that, after trimming leading whitespace, does
not begin case-insensitively with SELECT is rejected with the
distinguished null result (and, the embedding being a total function,
no exception can occur). -/
theorem claim3_non_select_rejected (q : String)
    (h : beginsWith ("SELECT".data)
           ((jsTrimStart q.data).map Char.toUpper) = false) :
    parseSQL q = none := by
  have hcode : beginsWith ("SELECT".data)
      ((jsTrim q.data).map Char.toUpper) = false := by
    cases hb : beginsWith ("SELECT".data) ((jsTrim q.data).map Char.toUpper) with
    | false => rfl
    | true =>
      obtain ⟨u, hu⟩ := jsTrimStart_decomp q.data
      rw [hu, List.map_append] at h
      rw [beginsWith_append _ _ _ hb] at h
      exact absurd h (by simp)
  simp only [parseSQL, hcode, Bool.false_eq_true, if_false]

/-- Witness for C3 at a concrete non-SELECT input. -/
theorem claim3_non_select_rejected_witness :
    beginsWith ("SELECT".data)
      ((jsTrimStart "INSERT INTO t VALUES (1)".data).map Char.toUpper) = false ∧
    parseSQL "INSERT INTO t VALUES (1)" = none :=
  ⟨by decide, claim3_non_select_rejected "INSERT INTO t VALUES (1)" (by decide)⟩

/-- Claim C4: for an input that (trimmed, upper-cased) begins with
SELECT, extraction fails exactly when the SELECT-clause regex or the
FROM-clause regex finds no match; when both match, extraction succeeds
and each optional clause defaults to the empty sequence when its regex
finds no match.  Extraction is a total function into Option ParsedQuery,
so no exception path exists for malformed clause text. -/
theorem claim4_failure_policy (q : String)
    (h : beginsWith ("SELECT".data)
           ((jsTrim q.data).map Char.toUpper) = true) :
    (parseSQL q = none ↔
       searchRE selectRE (jsTrim q.data) = none ∨
       searchRE fromRE (jsTrim q.data) = none) ∧
    (∀ p, parseSQL q = some p →
       (searchRE whereRE (jsTrim q.data) = none → p.conditions = []) ∧
       (jsMatchAll joinRE (jsTrim q.data) = [] → p.joins = []) ∧
       (searchRE groupByRE (jsTrim q.data) = none → p.groupBy = []) ∧
       (searchRE orderByRE (jsTrim q.data) = none → p.orderBy = []) ∧
       (searchRE havingRE (jsTrim q.data) = none → p.having = [])) := by
  constructor
  · cases hsel : searchRE selectRE (jsTrim q.data) with
    | none => simp [parseSQL, h, hsel]
    | some sel =>
      cases hfrom : searchRE fromRE (jsTrim q.data) with
      | none => simp [parseSQL, h, hsel, hfrom]
      | some fm => simp [parseSQL, h, hsel, hfrom]
  · intro p hp
    cases hsel : searchRE selectRE (jsTrim q.data) with
    | none => simp [parseSQL, h, hsel] at hp
    | some sel =>
      cases hfrom : searchRE fromRE (jsTrim q.data) with
      | none => simp [parseSQL, h, hsel, hfrom] at hp
      | some fm =>
        simp only [parseSQL, h, if_true, hsel, hfrom] at hp
        refine ⟨?_, ?_, ?_, ?_, ?_⟩
        · intro hw
          rw [hw] at hp
          rw [← Option.some.inj hp]
        · intro hj
          rw [hj] at hp
          rw [← Option.some.inj hp]
          simp
        · intro hg
          rw [hg] at hp
          rw [← Option.some.inj hp]
        · intro ho
          rw [ho] at hp
          rw [← Option.some.inj hp]
        · intro hh
          rw [hh] at hp
          rw [← Option.some.inj hp]

/-- Witness for C4 at a concrete SELECT input. -/
theorem claim4_failure_policy_witness :
    beginsWith ("SELECT".data)
      ((jsTrim "SELECT * FROM EMPLOYEE".data).map Char.toUpper) = true ∧
    (parseSQL "SELECT * FROM EMPLOYEE" = none ↔
       searchRE selectRE (jsTrim "SELECT * FROM EMPLOYEE".data) = none ∨
       searchRE fromRE (jsTrim "SELECT * FROM EMPLOYEE".data) = none) :=
  ⟨by decide, (claim4_failure_policy "SELECT * FROM EMPLOYEE" (by decide)).1⟩

/-- Counterexample to C5 as stated: the column list ["a", "*"], produced
by extraction from "SELECT a, * FROM T", is non-empty and is not
exactly ["*"], yet no projection is wrapped — the renderer's test is
membership of the wildcard, not equality with the one-element list. -/
theorem claim5_counterexample :
    (["a", "*"] : List String) ≠ [] ∧
    (["a", "*"] : List String) ≠ ["*"] ∧
    parseSQL "SELECT a, * FROM T" =
      some ⟨"SELECT", ["T"], ["a", "*"], [], [], [], [], []⟩ ∧
    applyProjection ["a", "*"] "T" = "T" ∧
    parseAndRender "SELECT a, * FROM T" = some "T" :=
  ⟨by decide, by decide, by decide, by decide, by decide⟩

/-- Claim C5 as amended: render wraps the accumulator in a projection
exactly when columns is non-empty and does not contain "*" (so the
wildcard anywhere in the list, not only as the sole element, suppresses
projection); in particular the wildcard query "SELECT * FROM EMPLOYEE"
renders as exactly "EMPLOYEE". -/
theorem claim5_projection_condition :
    (∀ (columns : List String) (acc : String),
       columns ≠ [] → columns.contains "*" = false →
       applyProjection columns acc =
         "π[" ++ String.intercalate ", " columns ++ "](" ++ acc ++ ")") ∧
    (∀ (columns : List String) (acc : String),
       columns = [] ∨ columns.contains "*" = true →
       applyProjection columns acc = acc) ∧
    parseAndRender "SELECT * FROM EMPLOYEE" = some "EMPLOYEE" := by
  refine ⟨?_, ?_, by decide⟩
  · intro columns acc h1 h2
    unfold applyProjection
    rw [if_pos]
    exact ⟨List.length_pos.mpr h1, by simpa using h2⟩
  · intro columns acc h
    unfold applyProjection
    rw [if_neg]
    rcases h with h | h
    · simp [h]
    · have hm : ("*" : String) ∈ columns := by simpa using h
      simp [hm]

/-- Witness for the amended C5 at concrete inputs. -/
theorem claim5_projection_condition_witness :
    applyProjection ["Name", "Salary"] "EMPLOYEE" =
      "π[" ++ String.intercalate ", " ["Name", "Salary"] ++ "](" ++ "EMPLOYEE" ++ ")" ∧
    applyProjection ["*"] "EMPLOYEE" = "EMPLOYEE" :=
  ⟨claim5_projection_condition.1 ["Name", "Salary"] "EMPLOYEE"
     (by decide) (by decide),
   claim5_projection_condition.2.1 ["*"] "EMPLOYEE" (Or.inr (by decide))⟩

/-- Counterexample to C6 as stated: extraction from
"SELECT a FROM T LEFT  JOIN U ON p = q WHERE r" (two spaces inside the
join keyword) produces a join record whose keyword phrase is a LEFT
join — its whitespace-normalised type is "LEFT JOIN" — yet the renderer
emits the inner-join symbol ⋈, because the symbol is chosen by exact
string comparison of the raw upper-cased phrase.  So the symbol is not
determined by the join kind alone. -/
theorem claim6_counterexample :
    parseSQL "SELECT a FROM T LEFT  JOIN U ON p = q WHERE r" =
      some ⟨"SELECT", ["T"], ["a"], ["r"],
            [⟨"LEFT  JOIN", "U", "p = q"⟩], [], [], []⟩ ∧
    String.mk (collapseWsAux false ("LEFT  JOIN").data) = "LEFT JOIN" ∧
    joinSymbol "LEFT  JOIN" = "⋈" ∧
    parseAndRender "SELECT a FROM T LEFT  JOIN U ON p = q WHERE r" =
      some "π[a](σ[r]((T ⋈[p = q] U)))" :=
  ⟨by decide, by decide, by decide, by decide⟩

/-- Claim C6 as amended: each join, taken left-to-right in extraction
order, wraps the accumulator as "(acc symbol[condition] table)" with
the condition's whitespace runs collapsed to single spaces and no other
rewriting; the symbol is chosen by comparing the stored type string
with the canonical single-space phrases — "LEFT JOIN"/"LEFT OUTER
JOIN" give ⟕, "RIGHT JOIN"/"RIGHT OUTER JOIN" give ⟖, "FULL
JOIN"/"FULL OUTER JOIN" give ⟗, and any other phrase (INNER JOIN, bare
JOIN, or an irregularly spaced variant) gives ⋈. -/
theorem claim6_join_rendering :
    (∀ (acc : String) (j : JoinClause),
       applyJoin acc j =
         "(" ++ acc ++ " " ++ joinSymbol j.type ++ "[" ++
           renderJoinCondition j.condition ++ "] " ++ j.table ++ ")") ∧
    (∀ (j : JoinClause) (js : List JoinClause) (acc : String),
       applyJoins (j :: js) acc = applyJoins js (applyJoin acc j)) ∧
    joinSymbol "LEFT JOIN" = "⟕" ∧ joinSymbol "LEFT OUTER JOIN" = "⟕" ∧
    joinSymbol "RIGHT JOIN" = "⟖" ∧ joinSymbol "RIGHT OUTER JOIN" = "⟖" ∧
    joinSymbol "FULL JOIN" = "⟗" ∧ joinSymbol "FULL OUTER JOIN" = "⟗" ∧
    joinSymbol "INNER JOIN" = "⋈" ∧ joinSymbol "JOIN" = "⋈" ∧
    joinSymbol "LEFT  JOIN" = "⋈" ∧
    renderJoinCondition "p   =   q" = "p = q" := by
  refine ⟨fun acc j => rfl, fun j js acc => rfl, ?_, ?_, ?_, ?_, ?_, ?_,
    ?_, ?_, ?_, ?_⟩ <;> decide

/-- Claim C7: the base of the rendered expression is the single table
name when the table list has exactly one element, and otherwise the
parenthesised Cartesian product of all the tables joined with " × "; in
particular "SELECT * FROM A, B" renders as "(A × B)". -/
theorem claim7_base_relation :
    (∀ t : String, baseRelation [t] = t) ∧
    baseRelation [] = "()" ∧
    (∀ (a b : String) (rest : List String),
       baseRelation (a :: b :: rest) =
         "(" ++ String.intercalate " × " (a :: b :: rest) ++ ")") ∧
    parseAndRender "SELECT * FROM A, B" = some "(A × B)" := by
  refine ⟨?_, by decide, ?_, by decide⟩
  · intro t
    unfold baseRelation
    rw [if_pos (by simp)]
    rfl
  · intro a b rest
    unfold baseRelation
    rw [if_neg (by simp)]

/-- Claim C8: an ORDER BY item's first whitespace-delimited token is the
column; the direction is DESC exactly when a second token exists that
upper-cases to DESC, and ASC otherwise — in particular ASC when no
second token is present; and the renderer prints the items inside
τ[...] as "column direction", comma-separated, in original order. -/
theorem claim8_order_items :
    (∀ item : List Char,
       (parseOrderItem item).column =
         String.mk ((jsSplitWs (jsTrim item)).headD [])) ∧
    (∀ item : List Char,
       ((parseOrderItem item).direction = "DESC" ↔
         ∃ second, (jsSplitWs (jsTrim item))[1]? = some second ∧
           second.map Char.toUpper = "DESC".data)) ∧
    (∀ item : List Char,
       (jsSplitWs (jsTrim item))[1]? = none →
       (parseOrderItem item).direction = "ASC") ∧
    (∀ (orderBy : List OrderItem) (acc : String), orderBy ≠ [] →
       applyOrdering orderBy acc =
         "τ[" ++
           String.intercalate ", "
             (orderBy.map (fun ob => ob.column ++ " " ++ ob.direction)) ++
         "](" ++ acc ++ ")") ∧
    parseAndRender "SELECT a FROM T ORDER BY b, c desc" =
      some "τ[b ASC, c DESC](π[a](T))" ∧
    parseAndRender "SELECT a FROM T ORDER BY b" =
      some "τ[b ASC](π[a](T))" := by
  refine ⟨fun item => rfl, ?_, ?_, ?_, by decide, by decide⟩
  · intro item
    unfold parseOrderItem
    cases hg : (jsSplitWs (jsTrim item))[1]? with
    | none =>
      simp [hg]
      decide
    | some s =>
      by_cases hc : s.map Char.toUpper = "DESC".data
      · simp [hg, hc]
      · simp [hg, hc]
        decide
  · intro item h
    unfold parseOrderItem
    simp [h]
  · intro orderBy acc h
    unfold applyOrdering
    rw [if_pos (List.length_pos.mpr h)]

/-- Witness for C8: the τ-format at a concrete list, and the ASC
default at a one-token concrete item. -/
theorem claim8_order_items_witness :
    applyOrdering [⟨"b", "ASC"⟩, ⟨"c", "DESC"⟩] "π[a](T)" =
      "τ[b ASC, c DESC](π[a](T))" ∧
    (parseOrderItem "b".data).direction = "ASC" :=
  ⟨(claim8_order_items.2.2.2.1 [⟨"b", "ASC"⟩, ⟨"c", "DESC"⟩] "π[a](T)"
      (by decide)).trans (by decide),
   claim8_order_items.2.2.1 ("b".data) (by decide)⟩

/-- Claim C10: every successfully extracted ParsedQuery has operation
"SELECT", a non-empty table list, a non-empty column list, and at most
one WHERE condition and at most one HAVING predicate — so the
renderer's base-relation step is always well defined on an
extractor-produced value. -/
theorem claim10_extraction_invariants (q : String) (p : ParsedQuery)
    (h : parseSQL q = some p) :
    p.operation = "SELECT" ∧ p.tables ≠ [] ∧ p.columns ≠ [] ∧
    p.conditions.length ≤ 1 ∧ p.having.length ≤ 1 := by
  by_cases hb : beginsWith ("SELECT".data) ((jsTrim q.data).map Char.toUpper) = true
  · cases hsel : searchRE selectRE (jsTrim q.data) with
    | none => simp [parseSQL, hb, hsel] at h
    | some sel =>
      cases hfrom : searchRE fromRE (jsTrim q.data) with
      | none => simp [parseSQL, hb, hsel, hfrom] at h
      | some fm =>
        simp only [parseSQL, hb, if_true, hsel, hfrom] at h
        obtain rfl := Option.some.inj h
        refine ⟨rfl, ?_, ?_, ?_, ?_⟩
        · intro hEq
          exact jsSplitChar_ne_nil ',' _ (List.map_eq_nil_iff.mp hEq)
        · show (if _ then _ else _) ≠ []
          split
          · simp
          · intro hEq
            exact jsSplitChar_ne_nil ',' _ (List.map_eq_nil_iff.mp hEq)
        · show (match searchRE whereRE (jsTrim q.data) with
                | some whereMatch => [String.mk (jsTrim (capAt whereMatch.2.2 0))]
                | none => []).length ≤ 1
          split
          · simp
          · simp
        · show (match searchRE havingRE (jsTrim q.data) with
                | some havingMatch => [String.mk (jsTrim (capAt havingMatch.2.2 0))]
                | none => []).length ≤ 1
          split
          · simp
          · simp
  · simp [parseSQL, hb] at h

/-- Witness for C10 at a concrete query. -/
theorem claim10_extraction_invariants_witness :
    (⟨"SELECT", ["EMPLOYEE"], ["*"], [], [], [], [], []⟩ : ParsedQuery).operation = "SELECT" ∧
    (⟨"SELECT", ["EMPLOYEE"], ["*"], [], [], [], [], []⟩ : ParsedQuery).tables ≠ [] ∧
    (⟨"SELECT", ["EMPLOYEE"], ["*"], [], [], [], [], []⟩ : ParsedQuery).columns ≠ [] ∧
    (⟨"SELECT", ["EMPLOYEE"], ["*"], [], [], [], [], []⟩ : ParsedQuery).conditions.length ≤ 1 ∧
    (⟨"SELECT", ["EMPLOYEE"], ["*"], [], [], [], [], []⟩ : ParsedQuery).having.length ≤ 1 :=
  claim10_extraction_invariants "SELECT * FROM EMPLOYEE"
    ⟨"SELECT", ["EMPLOYEE"], ["*"], [], [], [], [], []⟩ (by decide)

set_option maxHeartbeats 2000000

theorem runRE_alt_def (a b : RE) (s : List Char) :
    runRE (RE.alt a b) s = runRE a s ++ runRE b s := rfl

theorem runRE_eos_cons (c : Char) (t : List Char) :
    runRE RE.eos (c :: t) = [] := rfl

theorem runRE_seq_def (a b : RE) (s : List Char) :
    runRE (RE.seq a b) s =
      (runRE a s).flatMap (fun r1 =>
        (runRE b r1.1).map (fun r2 => (r2.1, r1.2 ++ r2.2))) := rfl

theorem lazySuffixes_eq_nil (p : Char → Bool) (s : List Char)
    (h : ∀ c ∈ s, p c = false) : lazySuffixes p s = [] := by
  cases s with
  | nil => rfl
  | cons c t => simp [lazySuffixes, h c (List.mem_cons_self c t)]

theorem ciConsume_sublist (w : List Char) :
    ∀ s t, ciConsume w s = some t → List.Sublist t s := by
  induction w with
  | nil =>
    intro s t h
    simp only [ciConsume, Option.some.injEq] at h
    exact h ▸ List.Sublist.refl s
  | cons p ps ih =>
    intro s t h
    cases s with
    | nil => simp [ciConsume] at h
    | cons c cs =>
      simp only [ciConsume] at h
      split at h
      · exact (ih cs t h).trans (List.sublist_cons_self c cs)
      · exact absurd h (by simp)

theorem lazySuffixes_sublist (p : Char → Bool) :
    ∀ s t, t ∈ lazySuffixes p s → List.Sublist t s := by
  intro s
  induction s with
  | nil => intro t h; simp [lazySuffixes] at h
  | cons c cs ih =>
    intro t h
    simp only [lazySuffixes] at h
    split at h
    · rcases List.mem_cons.mp h with h2 | h2
      · rw [h2]
        exact List.sublist_cons_self c cs
      · exact (ih t h2).trans (List.sublist_cons_self c cs)
    · simp at h

theorem runRE_sublist : ∀ (r : RE) (s : List Char)
    (pr : List Char × List (List Char)), pr ∈ runRE r s → List.Sublist pr.1 s := by
  intro r
  induction r with
  | cls p =>
    intro s pr h
    cases s with
    | nil => simp [runRE] at h
    | cons c t =>
      simp only [runRE] at h
      split at h
      · rw [List.mem_singleton.mp h]
        exact List.sublist_cons_self c t
      · simp at h
  | istr w =>
    intro s pr h
    simp only [runRE] at h
    split at h
    · rename_i t ht
      rw [List.mem_singleton.mp h]
      exact ciConsume_sublist w s t ht
    · simp at h
  | seq a b iha ihb =>
    intro s pr h
    simp only [runRE, List.mem_flatMap, List.mem_map] at h
    obtain ⟨r1, hr1, r2, hr2, rfl⟩ := h
    exact (ihb r1.1 r2 hr2).trans (iha s r1 hr1)
  | alt a b iha ihb =>
    intro s pr h
    rcases List.mem_append.mp h with h1 | h1
    · exact iha s pr h1
    · exact ihb s pr h1
  | opt a iha =>
    intro s pr h
    rcases List.mem_append.mp h with h1 | h1
    · exact iha s pr h1
    · rw [List.mem_singleton.mp h1]
  | plusL p =>
    intro s pr h
    simp only [runRE, List.mem_map] at h
    obtain ⟨t, ht, rfl⟩ := h
    exact lazySuffixes_sublist p s t ht
  | plusG p =>
    intro s pr h
    simp only [runRE, List.mem_reverse, List.mem_map] at h
    obtain ⟨t, ht, rfl⟩ := h
    exact lazySuffixes_sublist p s t ht
  | starG p =>
    intro s pr h
    simp only [runRE, List.mem_reverse, List.mem_map] at h
    obtain ⟨t, ht, rfl⟩ := h
    rcases List.mem_cons.mp ht with h2 | h2
    · rw [h2]
    · exact lazySuffixes_sublist p s t h2
  | grp a iha =>
    intro s pr h
    simp only [runRE, List.mem_map] at h
    obtain ⟨r1, hr1, rfl⟩ := h
    exact iha s r1 hr1
  | eos =>
    intro s pr h
    cases s with
    | nil =>
      rw [List.mem_singleton.mp h]
    | cons c t => simp [runRE] at h
  | look a iha =>
    intro s pr h
    simp only [runRE] at h
    split at h
    · simp at h
    · rw [List.mem_singleton.mp h]

theorem runRE_wsPlus_seq_nil (X : RE) (s : List Char)
    (h : ∀ c ∈ s, jsWhitespace c = false) :
    runRE (RE.seq wsPlus X) s = [] := by
  rw [runRE_seq_def]
  rw [show runRE wsPlus s =
        ((lazySuffixes jsWhitespace s).map (fun t => (t, []))).reverse from rfl]
  rw [lazySuffixes_eq_nil jsWhitespace s h]
  rfl

theorem runRE_firstKw_ws_nil (A X : RE) (s : List Char)
    (h : ∀ c ∈ s, jsWhitespace c = false) :
    runRE (RE.seq A (RE.seq wsPlus X)) s = [] := by
  rw [runRE_seq_def, List.flatMap_eq_nil_iff]
  intro r1 hr1
  rw [runRE_wsPlus_seq_nil X r1.1
    (fun c hc => h c ((runRE_sublist A s r1 hr1).subset hc))]
  rfl

theorem jsDot_of_not_ws (c : Char) (h : jsWhitespace c = false) :
    jsDot c = true := by
  simp only [jsWhitespace, decide_eq_false_iff_not] at h
  simp only [jsDot, decide_eq_true_eq]
  tauto

theorem whereBoundary_run_empty : runRE whereBoundary [] = [([], [])] := by
  decide

theorem groupByBoundary_run_empty : runRE groupByBoundary [] = [([], [])] := by
  decide

theorem havingBoundary_run_empty : runRE havingBoundary [] = [([], [])] := by
  decide

theorem whereBoundary_run_nil (s : List Char) (hs : s ≠ [])
    (h : ∀ c ∈ s, jsWhitespace c = false) : runRE whereBoundary s = [] := by
  obtain ⟨c, t, rfl⟩ : ∃ c t, s = c :: t := by
    cases s with
    | nil => exact absurd rfl hs
    | cons c t => exact ⟨c, t, rfl⟩
  show runRE (RE.seq wsPlus (RE.seq (kw "GROUP") (RE.seq wsPlus (kw "BY")))) (c :: t) ++
      (runRE (RE.seq wsPlus (RE.seq (kw "ORDER") (RE.seq wsPlus (kw "BY")))) (c :: t) ++
        (runRE (RE.seq wsPlus (kw "HAVING")) (c :: t) ++ runRE RE.eos (c :: t))) = []
  rw [runRE_wsPlus_seq_nil _ _ h, runRE_wsPlus_seq_nil _ _ h,
    runRE_wsPlus_seq_nil _ _ h, runRE_eos_cons]
  rfl

theorem groupByBoundary_run_nil (s : List Char) (hs : s ≠ [])
    (h : ∀ c ∈ s, jsWhitespace c = false) : runRE groupByBoundary s = [] := by
  obtain ⟨c, t, rfl⟩ : ∃ c t, s = c :: t := by
    cases s with
    | nil => exact absurd rfl hs
    | cons c t => exact ⟨c, t, rfl⟩
  show runRE (RE.seq wsPlus (kw "HAVING")) (c :: t) ++
      (runRE (RE.seq wsPlus (RE.seq (kw "ORDER") (RE.seq wsPlus (kw "BY")))) (c :: t) ++
        runRE RE.eos (c :: t)) = []
  rw [runRE_wsPlus_seq_nil _ _ h, runRE_wsPlus_seq_nil _ _ h, runRE_eos_cons]
  rfl

theorem havingBoundary_run_nil (s : List Char) (hs : s ≠ [])
    (h : ∀ c ∈ s, jsWhitespace c = false) : runRE havingBoundary s = [] := by
  obtain ⟨c, t, rfl⟩ : ∃ c t, s = c :: t := by
    cases s with
    | nil => exact absurd rfl hs
    | cons c t => exact ⟨c, t, rfl⟩
  show runRE (RE.seq wsPlus (RE.seq (kw "ORDER") (RE.seq wsPlus (kw "BY")))) (c :: t) ++
      runRE RE.eos (c :: t) = []
  rw [runRE_wsPlus_seq_nil _ _ h, runRE_eos_cons]
  rfl

theorem orderByBoundary_run_empty : runRE orderByBoundary [] = [([], [])] := by
  decide

theorem orderByBoundary_run_cons_ne (c : Char) (t : List Char) (hc : ¬ c = ';') :
    runRE orderByBoundary (c :: t) = [] := by
  simp [orderByBoundary, runRE_alt_def, runRE, hc]

theorem orderByBoundary_run_cons_semi (t : List Char) :
    runRE orderByBoundary (';' :: t) = [(t, [])] := by
  simp [orderByBoundary, runRE_alt_def, runRE]

theorem runRE_whereRE_nil (s : List Char)
    (h : ∀ c ∈ s, jsWhitespace c = false) : runRE whereRE s = [] :=
  runRE_firstKw_ws_nil (kw "WHERE")
    (RE.seq (RE.grp (RE.plusL jsDot)) whereBoundary) s h

theorem runRE_groupByRE_nil (s : List Char)
    (h : ∀ c ∈ s, jsWhitespace c = false) : runRE groupByRE s = [] :=
  runRE_firstKw_ws_nil (kw "GROUP")
    (RE.seq (kw "BY") (RE.seq wsPlus
      (RE.seq (RE.grp (RE.plusL jsDot)) groupByBoundary))) s h

theorem runRE_orderByRE_nil (s : List Char)
    (h : ∀ c ∈ s, jsWhitespace c = false) : runRE orderByRE s = [] :=
  runRE_firstKw_ws_nil (kw "ORDER")
    (RE.seq (kw "BY") (RE.seq wsPlus
      (RE.seq (RE.grp (RE.plusL jsDot)) orderByBoundary))) s h

theorem runRE_havingRE_nil (s : List Char)
    (h : ∀ c ∈ s, jsWhitespace c = false) : runRE havingRE s = [] :=
  runRE_firstKw_ws_nil (kw "HAVING")
    (RE.seq (RE.grp (RE.plusL jsDot)) havingBoundary) s h

theorem runRE_joinRE_nil (s : List Char)
    (h : ∀ c ∈ s, jsWhitespace c = false) : runRE joinRE s = [] :=
  runRE_firstKw_ws_nil (altAll joinKeywords)
    (RE.seq (RE.grp (RE.plusG jsWord))
      (RE.seq (RE.opt (RE.seq wsPlus (RE.plusG jsWord)))
        (RE.seq wsPlus (RE.seq (kw "ON") (RE.seq wsPlus
          (RE.seq (RE.grp (RE.plusL jsNotSemi)) (RE.look joinBoundary))))))) s h

theorem searchRE_none_of (r : RE)
    (hr : ∀ u, (∀ c ∈ u, jsWhitespace c = false) → runRE r u = []) :
    ∀ s, (∀ c ∈ s, jsWhitespace c = false) → searchRE r s = none := by
  intro s
  induction s with
  | nil =>
    intro h
    simp [searchRE, hr [] h]
  | cons c t ih =>
    intro h
    have ht : ∀ x ∈ t, jsWhitespace x = false :=
      fun x hx => h x (List.mem_cons_of_mem c hx)
    simp [searchRE, hr (c :: t) h, ih ht]

theorem flatMap_congr_mem {α β : Type} {l : List α} {f g : α → List β}
    (h : ∀ x ∈ l, f x = g x) : l.flatMap f = l.flatMap g := by
  induction l with
  | nil => rfl
  | cons a t ih =>
    rw [List.flatMap_cons, List.flatMap_cons, h a (List.mem_cons_self a t),
      ih (fun x hx => h x (List.mem_cons_of_mem a hx))]

theorem take_cons_of_le (c : Char) (t tk : List Char)
    (hlen : tk.length ≤ t.length) :
    (c :: t).take ((c :: t).length - tk.length) =
      c :: t.take (t.length - tk.length) := by
  rw [List.length_cons]
  rw [show t.length + 1 - tk.length = (t.length - tk.length) + 1 from by omega]
  rfl

theorem lazy_capture_to_end (bnd : RE)
    (hb0 : runRE bnd [] = [([], [])])
    (hbF : ∀ u, u ≠ [] → (∀ c ∈ u, jsWhitespace c = false) → runRE bnd u = []) :
    ∀ (s pre : List Char), (∀ c ∈ s, jsWhitespace c = false) →
      ((lazySuffixes jsDot s).flatMap
        (fun tk => (runRE bnd tk).map
          (fun r2 => (r2.1, (pre ++ s.take (s.length - tk.length)) :: r2.2)))) =
      if s = [] then [] else [([], [pre ++ s])] := by
  intro s
  induction s with
  | nil =>
    intro pre h
    simp [lazySuffixes]
  | cons c t ih =>
    intro pre h
    have hc : jsWhitespace c = false := h c (List.mem_cons_self c t)
    have ht : ∀ x ∈ t, jsWhitespace x = false :=
      fun x hx => h x (List.mem_cons_of_mem c hx)
    rw [show lazySuffixes jsDot (c :: t) = t :: lazySuffixes jsDot t from by
      simp [lazySuffixes, jsDot_of_not_ws c hc]]
    rw [List.flatMap_cons]
    by_cases ht0 : t = []
    · subst ht0
      simp [hb0, lazySuffixes]
    · rw [hbF t ht0 ht]
      rw [List.map_nil, List.nil_append]
      have hstep : ∀ tk ∈ lazySuffixes jsDot t,
          ((runRE bnd tk).map
            (fun r2 => (r2.1,
              (pre ++ (c :: t).take ((c :: t).length - tk.length)) :: r2.2))) =
          ((runRE bnd tk).map
            (fun r2 => (r2.1,
              ((pre ++ [c]) ++ t.take (t.length - tk.length)) :: r2.2))) := by
        intro tk htk
        have hlen : tk.length ≤ t.length :=
          (lazySuffixes_sublist jsDot t tk htk).length_le
        rw [take_cons_of_le c t tk hlen]
        rw [show pre ++ c :: t.take (t.length - tk.length) =
              (pre ++ [c]) ++ t.take (t.length - tk.length) from by simp]
      rw [flatMap_congr_mem hstep, ih (pre ++ [c]) ht, if_neg ht0]
      simp

theorem runRE_grp_lazy_boundary (bnd : RE)
    (hb0 : runRE bnd [] = [([], [])])
    (hbF : ∀ u, u ≠ [] → (∀ c ∈ u, jsWhitespace c = false) → runRE bnd u = [])
    (s : List Char) (hs : s ≠ [])
    (h : ∀ c ∈ s, jsWhitespace c = false) :
    runRE (RE.seq (RE.grp (RE.plusL jsDot)) bnd) s = [([], [s])] := by
  have h2 := lazy_capture_to_end bnd hb0 hbF s [] h
  rw [if_neg hs] at h2
  rw [runRE_seq_def, show runRE (RE.grp (RE.plusL jsDot)) s =
      (lazySuffixes jsDot s).map
        (fun t => (t, ([s.take (s.length - t.length)] : List (List Char)))) from by
    show ((lazySuffixes jsDot s).map (fun t => (t, []))).map
        (fun r => (r.1, r.2 ++ [s.take (s.length - r.1.length)])) = _
    rw [List.map_map]
    rfl]
  rw [List.flatMap_map]
  exact h2

theorem lazy_capture_to_semi :
    ∀ (s pre : List Char), (∀ c ∈ s, jsWhitespace c = false) →
      (∀ c ∈ s, ¬ c = ';') →
      ((lazySuffixes jsDot (s ++ [';'])).flatMap
        (fun tk => (runRE orderByBoundary tk).map
          (fun r2 => (r2.1,
            (pre ++ (s ++ [';']).take ((s ++ [';']).length - tk.length)) :: r2.2)))) =
      if s = [] then [([], [pre ++ [';']])]
      else [([], [pre ++ s]), ([], [pre ++ (s ++ [';'])])] := by
  intro s
  induction s with
  | nil =>
    intro pre h hsemi
    simp [lazySuffixes, orderByBoundary_run_empty, jsDot]
  | cons c t ih =>
    intro pre h hsemi
    have hc : jsWhitespace c = false := h c (List.mem_cons_self c t)
    have ht : ∀ x ∈ t, jsWhitespace x = false :=
      fun x hx => h x (List.mem_cons_of_mem c hx)
    have htsemi : ∀ x ∈ t, ¬ x = ';' :=
      fun x hx => hsemi x (List.mem_cons_of_mem c hx)
    rw [show (c :: t) ++ [';'] = c :: (t ++ [';']) from rfl]
    rw [show lazySuffixes jsDot (c :: (t ++ [';'])) =
          (t ++ [';']) :: lazySuffixes jsDot (t ++ [';']) from by
      simp [lazySuffixes, jsDot_of_not_ws c hc]]
    rw [List.flatMap_cons]
    have hfirst : runRE orderByBoundary (t ++ [';']) =
        if t = [] then [([], [])] else [] := by
      cases t with
      | nil => simpa using orderByBoundary_run_cons_semi []
      | cons d r =>
        rw [if_neg (by simp)]
        exact orderByBoundary_run_cons_ne d (r ++ [';'])
          (htsemi d (List.mem_cons_self d r))
    by_cases ht0 : t = []
    · subst ht0
      simp only [hfirst, if_pos rfl]
      simp [lazySuffixes, orderByBoundary_run_empty,
        orderByBoundary_run_cons_semi, jsDot]
    · rw [hfirst, if_neg ht0, List.map_nil, List.nil_append]
      have hstep : ∀ tk ∈ lazySuffixes jsDot (t ++ [';']),
          ((runRE orderByBoundary tk).map
            (fun r2 => (r2.1,
              (pre ++ (c :: (t ++ [';'])).take
                ((c :: (t ++ [';'])).length - tk.length)) :: r2.2))) =
          ((runRE orderByBoundary tk).map
            (fun r2 => (r2.1,
              ((pre ++ [c]) ++ (t ++ [';']).take
                ((t ++ [';']).length - tk.length)) :: r2.2))) := by
        intro tk htk
        have hlen : tk.length ≤ (t ++ [';']).length :=
          (lazySuffixes_sublist jsDot (t ++ [';']) tk htk).length_le
        rw [take_cons_of_le c (t ++ [';']) tk hlen]
        rw [show pre ++ c :: (t ++ [';']).take ((t ++ [';']).length - tk.length) =
              (pre ++ [c]) ++ (t ++ [';']).take ((t ++ [';']).length - tk.length)
            from by simp]
      rw [flatMap_congr_mem hstep, ih (pre ++ [c]) ht htsemi, if_neg ht0,
        if_neg (by simp)]
      simp

theorem runRE_grp_lazy_semi (s : List Char) (hs : s ≠ [])
    (h : ∀ c ∈ s, jsWhitespace c = false) (hsemi : ∀ c ∈ s, ¬ c = ';') :
    runRE (RE.seq (RE.grp (RE.plusL jsDot)) orderByBoundary) (s ++ [';']) =
      [([], [s]), ([], [s ++ [';']])] := by
  have h2 := lazy_capture_to_semi s [] h hsemi
  rw [if_neg hs] at h2
  rw [runRE_seq_def, show runRE (RE.grp (RE.plusL jsDot)) (s ++ [';']) =
      (lazySuffixes jsDot (s ++ [';'])).map
        (fun t => (t, ([(s ++ [';']).take ((s ++ [';']).length - t.length)] :
          List (List Char)))) from by
    show ((lazySuffixes jsDot (s ++ [';'])).map (fun t => (t, []))).map
        (fun r => (r.1, r.2 ++ [(s ++ [';']).take ((s ++ [';']).length - r.1.length)])) = _
    rw [List.map_map]
    rfl]
  rw [List.flatMap_map]
  exact h2

theorem map_cap_id (l : List (List Char × List (List Char))) :
    l.map (fun r2 => (r2.1, [] ++ r2.2)) = l := by
  induction l with
  | nil => rfl
  | cons a t ih => simp [ih]

theorem runRE_seq_istr_step (w : List Char) (X : RE) (s t : List Char)
    (h : ciConsume w s = some t) :
    runRE (RE.seq (RE.istr w) X) s =
      (runRE X t).map (fun r2 => (r2.1, [] ++ r2.2)) := by
  rw [runRE_seq_def, show runRE (RE.istr w) s = [(t, [])] from by
    show (match ciConsume w s with
          | some u => [(u, [])]
          | none => []) = [(t, [])]
    rw [h]]
  rw [List.flatMap_cons, List.flatMap_nil, List.append_nil]

theorem runRE_seq_ws_step (X : RE) (c : Char) (u : List Char)
    (hcws : jsWhitespace c = true)
    (hu : lazySuffixes jsWhitespace u = []) :
    runRE (RE.seq wsPlus X) (c :: u) =
      (runRE X u).map (fun r2 => (r2.1, [] ++ r2.2)) := by
  rw [runRE_seq_def, show runRE wsPlus (c :: u) = [(u, [])] from by
    show ((lazySuffixes jsWhitespace (c :: u)).map (fun t => (t, []))).reverse = _
    rw [show lazySuffixes jsWhitespace (c :: u) =
          u :: lazySuffixes jsWhitespace u from by simp [lazySuffixes, hcws], hu]
    rfl]
  rw [List.flatMap_cons, List.flatMap_nil, List.append_nil]

theorem runRE_whereRE_success (u : List Char) (hu : u ≠ [])
    (h : ∀ c ∈ u, jsWhitespace c = false) :
    runRE whereRE ("WHERE ".data ++ u) = [([], [u])] := by
  rw [show whereRE = RE.seq (RE.istr ("WHERE".data))
        (RE.seq wsPlus (RE.seq (RE.grp (RE.plusL jsDot)) whereBoundary)) from rfl]
  rw [runRE_seq_istr_step ("WHERE".data) _ ("WHERE ".data ++ u) (' ' :: u) rfl]
  rw [runRE_seq_ws_step _ ' ' u (by decide) (lazySuffixes_eq_nil jsWhitespace u h)]
  rw [runRE_grp_lazy_boundary whereBoundary whereBoundary_run_empty
    whereBoundary_run_nil u hu h]
  rw [map_cap_id, map_cap_id]

theorem runRE_havingRE_success (u : List Char) (hu : u ≠ [])
    (h : ∀ c ∈ u, jsWhitespace c = false) :
    runRE havingRE ("HAVING ".data ++ u) = [([], [u])] := by
  rw [show havingRE = RE.seq (RE.istr ("HAVING".data))
        (RE.seq wsPlus (RE.seq (RE.grp (RE.plusL jsDot)) havingBoundary)) from rfl]
  rw [runRE_seq_istr_step ("HAVING".data) _ ("HAVING ".data ++ u) (' ' :: u) rfl]
  rw [runRE_seq_ws_step _ ' ' u (by decide) (lazySuffixes_eq_nil jsWhitespace u h)]
  rw [runRE_grp_lazy_boundary havingBoundary havingBoundary_run_empty
    havingBoundary_run_nil u hu h]
  rw [map_cap_id, map_cap_id]

theorem runRE_groupByRE_success (u : List Char) (hu : u ≠ [])
    (h : ∀ c ∈ u, jsWhitespace c = false) :
    runRE groupByRE ("GROUP BY ".data ++ u) = [([], [u])] := by
  rw [show groupByRE = RE.seq (RE.istr ("GROUP".data))
        (RE.seq wsPlus (RE.seq (RE.istr ("BY".data))
          (RE.seq wsPlus (RE.seq (RE.grp (RE.plusL jsDot)) groupByBoundary)))) from rfl]
  rw [runRE_seq_istr_step ("GROUP".data) _ ("GROUP BY ".data ++ u)
    (' ' :: ('B' :: 'Y' :: ' ' :: u)) rfl]
  rw [runRE_seq_ws_step _ ' ' ('B' :: 'Y' :: ' ' :: u) (by decide) (by
    show lazySuffixes jsWhitespace ('B' :: 'Y' :: ' ' :: u) = []
    simp +decide [lazySuffixes])]
  rw [runRE_seq_istr_step ("BY".data) _ ('B' :: 'Y' :: ' ' :: u) (' ' :: u) rfl]
  rw [runRE_seq_ws_step _ ' ' u (by decide) (lazySuffixes_eq_nil jsWhitespace u h)]
  rw [runRE_grp_lazy_boundary groupByBoundary groupByBoundary_run_empty
    groupByBoundary_run_nil u hu h]
  rw [map_cap_id, map_cap_id, map_cap_id, map_cap_id]

theorem runRE_orderByRE_success (s : List Char) (hs : s ≠ [])
    (h : ∀ c ∈ s, jsWhitespace c = false) (hsemi : ∀ c ∈ s, ¬ c = ';') :
    runRE orderByRE ("ORDER BY ".data ++ (s ++ [';'])) =
      [([], [s]), ([], [s ++ [';']])] := by
  have hsemiws : ∀ c ∈ s ++ [';'], jsWhitespace c = false := by
    intro c hc
    rcases List.mem_append.mp hc with hc | hc
    · exact h c hc
    · rw [List.mem_singleton.mp hc]
      decide
  rw [show orderByRE = RE.seq (RE.istr ("ORDER".data))
        (RE.seq wsPlus (RE.seq (RE.istr ("BY".data))
          (RE.seq wsPlus (RE.seq (RE.grp (RE.plusL jsDot)) orderByBoundary)))) from rfl]
  rw [runRE_seq_istr_step ("ORDER".data) _ ("ORDER BY ".data ++ (s ++ [';']))
    (' ' :: ('B' :: 'Y' :: ' ' :: (s ++ [';']))) rfl]
  rw [runRE_seq_ws_step _ ' ' ('B' :: 'Y' :: ' ' :: (s ++ [';'])) (by decide) (by
    show lazySuffixes jsWhitespace ('B' :: 'Y' :: ' ' :: (s ++ [';'])) = []
    simp +decide [lazySuffixes])]
  rw [runRE_seq_istr_step ("BY".data) _ ('B' :: 'Y' :: ' ' :: (s ++ [';']))
    (' ' :: (s ++ [';'])) rfl]
  rw [runRE_seq_ws_step _ ' ' (s ++ [';']) (by decide)
    (lazySuffixes_eq_nil jsWhitespace (s ++ [';']) hsemiws)]
  rw [runRE_grp_lazy_semi s hs h hsemi]
  rw [map_cap_id, map_cap_id, map_cap_id, map_cap_id]

theorem take_head_cons (c : Char) (t : List Char) :
    (c :: t).take ((c :: t).length - t.length) = [c] := by
  rw [List.length_cons, show t.length + 1 - t.length = 1 from by omega]
  rfl

theorem searchRE_cons_none (r : RE) (c : Char) (t : List Char)
    (h : runRE r (c :: t) = []) : searchRE r (c :: t) = searchRE r t := by
  simp [searchRE, h]

theorem searchRE_cons_found (r : RE) (c : Char) (t suf : List Char)
    (caps : List (List Char))
    (h : (runRE r (c :: t)).head? = some (suf, caps)) :
    searchRE r (c :: t) =
      some ((c :: t).take ((c :: t).length - suf.length), suf, caps) := by
  simp [searchRE, h]

theorem selectRE_head (w : List Char) :
    (runRE selectRE ("SELECT a FROM".data ++ w)).head? =
      some (w, [('a' :: (' ' :: 'F' :: 'R' :: 'O' :: 'M' :: w)).take
        (('a' :: (' ' :: 'F' :: 'R' :: 'O' :: 'M' :: w)).length -
         (' ' :: 'F' :: 'R' :: 'O' :: 'M' :: w).length)]) := rfl

theorem fromRE_head_where (w : List Char) :
    (runRE fromRE ("FROM T WHERE ".data ++ w)).head? =
      some (' ' :: w, [('T' :: (' ' :: 'W' :: 'H' :: 'E' :: 'R' :: 'E' :: ' ' :: w)).take
        (('T' :: (' ' :: 'W' :: 'H' :: 'E' :: 'R' :: 'E' :: ' ' :: w)).length -
         (' ' :: 'W' :: 'H' :: 'E' :: 'R' :: 'E' :: ' ' :: w).length)]) := rfl

theorem fromRE_head_group (w : List Char) :
    (runRE fromRE ("FROM T GROUP BY ".data ++ w)).head? =
      some (' ' :: w,
        [('T' :: (' ' :: 'G' :: 'R' :: 'O' :: 'U' :: 'P' :: ' ' :: 'B' :: 'Y' :: ' ' :: w)).take
          (('T' :: (' ' :: 'G' :: 'R' :: 'O' :: 'U' :: 'P' :: ' ' :: 'B' :: 'Y' :: ' ' :: w)).length -
           (' ' :: 'G' :: 'R' :: 'O' :: 'U' :: 'P' :: ' ' :: 'B' :: 'Y' :: ' ' :: w).length)]) := rfl

theorem fromRE_head_order (w : List Char) :
    (runRE fromRE ("FROM T ORDER BY ".data ++ w)).head? =
      some (' ' :: w,
        [('T' :: (' ' :: 'O' :: 'R' :: 'D' :: 'E' :: 'R' :: ' ' :: 'B' :: 'Y' :: ' ' :: w)).take
          (('T' :: (' ' :: 'O' :: 'R' :: 'D' :: 'E' :: 'R' :: ' ' :: 'B' :: 'Y' :: ' ' :: w)).length -
           (' ' :: 'O' :: 'R' :: 'D' :: 'E' :: 'R' :: ' ' :: 'B' :: 'Y' :: ' ' :: w).length)]) := rfl

theorem fromRE_head_having (w : List Char) :
    (runRE fromRE ("FROM T HAVING ".data ++ w)).head? =
      some (' ' :: w,
        [('T' :: (' ' :: 'H' :: 'A' :: 'V' :: 'I' :: 'N' :: 'G' :: ' ' :: w)).take
          (('T' :: (' ' :: 'H' :: 'A' :: 'V' :: 'I' :: 'N' :: 'G' :: ' ' :: w)).length -
           (' ' :: 'H' :: 'A' :: 'V' :: 'I' :: 'N' :: 'G' :: ' ' :: w).length)]) := rfl

theorem searchRE_selectRE_at (w : List Char) :
    ∃ m, searchRE selectRE ("SELECT a FROM".data ++ w) = some (m, w, [['a']]) := by
  have hh := selectRE_head w
  rw [take_head_cons] at hh
  exact ⟨_, searchRE_cons_found selectRE 'S'
    ('E' :: 'L' :: 'E' :: 'C' :: 'T' :: ' ' :: 'a' :: ' ' :: 'F' :: 'R' :: 'O' :: 'M' :: w)
    w [['a']] hh⟩

theorem searchRE_fromRE_where_at (w : List Char) :
    ∃ m, searchRE fromRE ("FROM T WHERE ".data ++ w) = some (m, ' ' :: w, [['T']]) := by
  have hh := fromRE_head_where w
  rw [take_head_cons] at hh
  exact ⟨_, searchRE_cons_found fromRE 'F'
    ('R' :: 'O' :: 'M' :: ' ' :: 'T' :: ' ' :: 'W' :: 'H' :: 'E' :: 'R' :: 'E' :: ' ' :: w)
    (' ' :: w) [['T']] hh⟩

theorem searchRE_fromRE_group_at (w : List Char) :
    ∃ m, searchRE fromRE ("FROM T GROUP BY ".data ++ w) = some (m, ' ' :: w, [['T']]) := by
  have hh := fromRE_head_group w
  rw [take_head_cons] at hh
  exact ⟨_, searchRE_cons_found fromRE 'F'
    ('R' :: 'O' :: 'M' :: ' ' :: 'T' :: ' ' :: 'G' :: 'R' :: 'O' :: 'U' :: 'P' :: ' ' :: 'B' :: 'Y' :: ' ' :: w)
    (' ' :: w) [['T']] hh⟩

theorem searchRE_fromRE_order_at (w : List Char) :
    ∃ m, searchRE fromRE ("FROM T ORDER BY ".data ++ w) = some (m, ' ' :: w, [['T']]) := by
  have hh := fromRE_head_order w
  rw [take_head_cons] at hh
  exact ⟨_, searchRE_cons_found fromRE 'F'
    ('R' :: 'O' :: 'M' :: ' ' :: 'T' :: ' ' :: 'O' :: 'R' :: 'D' :: 'E' :: 'R' :: ' ' :: 'B' :: 'Y' :: ' ' :: w)
    (' ' :: w) [['T']] hh⟩

theorem searchRE_fromRE_having_at (w : List Char) :
    ∃ m, searchRE fromRE ("FROM T HAVING ".data ++ w) = some (m, ' ' :: w, [['T']]) := by
  have hh := fromRE_head_having w
  rw [take_head_cons] at hh
  exact ⟨_, searchRE_cons_found fromRE 'F'
    ('R' :: 'O' :: 'M' :: ' ' :: 'T' :: ' ' :: 'H' :: 'A' :: 'V' :: 'I' :: 'N' :: 'G' :: ' ' :: w)
    (' ' :: w) [['T']] hh⟩

theorem searchRE_whereRE_key (body : List Char) (_hb : body ≠ [])
    (h : ∀ c ∈ body ++ [';'], jsWhitespace c = false) :
    ∃ m, searchRE whereRE ("WHERE ".data ++ (body ++ [';'])) =
      some (m, [], [body ++ [';']]) := by
  have hrun : runRE whereRE
      ('W' :: 'H' :: 'E' :: 'R' :: 'E' :: ' ' :: (body ++ [';'])) =
      [([], [body ++ [';']])] :=
    runRE_whereRE_success (body ++ [';']) (by simp) h
  exact ⟨_, searchRE_cons_found whereRE 'W'
    ('H' :: 'E' :: 'R' :: 'E' :: ' ' :: (body ++ [';']))
    [] [body ++ [';']] (by rw [hrun]; rfl)⟩

theorem searchRE_groupByRE_key (body : List Char) (_hb : body ≠ [])
    (h : ∀ c ∈ body ++ [';'], jsWhitespace c = false) :
    ∃ m, searchRE groupByRE ("GROUP BY ".data ++ (body ++ [';'])) =
      some (m, [], [body ++ [';']]) := by
  have hrun : runRE groupByRE
      ('G' :: 'R' :: 'O' :: 'U' :: 'P' :: ' ' :: 'B' :: 'Y' :: ' ' :: (body ++ [';'])) =
      [([], [body ++ [';']])] :=
    runRE_groupByRE_success (body ++ [';']) (by simp) h
  exact ⟨_, searchRE_cons_found groupByRE 'G'
    ('R' :: 'O' :: 'U' :: 'P' :: ' ' :: 'B' :: 'Y' :: ' ' :: (body ++ [';']))
    [] [body ++ [';']] (by rw [hrun]; rfl)⟩

theorem searchRE_havingRE_key (body : List Char) (_hb : body ≠ [])
    (h : ∀ c ∈ body ++ [';'], jsWhitespace c = false) :
    ∃ m, searchRE havingRE ("HAVING ".data ++ (body ++ [';'])) =
      some (m, [], [body ++ [';']]) := by
  have hrun : runRE havingRE
      ('H' :: 'A' :: 'V' :: 'I' :: 'N' :: 'G' :: ' ' :: (body ++ [';'])) =
      [([], [body ++ [';']])] :=
    runRE_havingRE_success (body ++ [';']) (by simp) h
  exact ⟨_, searchRE_cons_found havingRE 'H'
    ('A' :: 'V' :: 'I' :: 'N' :: 'G' :: ' ' :: (body ++ [';']))
    [] [body ++ [';']] (by rw [hrun]; rfl)⟩

theorem searchRE_orderByRE_key (body : List Char) (hb : body ≠ [])
    (h : ∀ c ∈ body, jsWhitespace c = false) (hsemi : ∀ c ∈ body, ¬ c = ';') :
    ∃ m, searchRE orderByRE ("ORDER BY ".data ++ (body ++ [';'])) =
      some (m, [], [body]) := by
  have hrun : runRE orderByRE
      ('O' :: 'R' :: 'D' :: 'E' :: 'R' :: ' ' :: 'B' :: 'Y' :: ' ' :: (body ++ [';'])) =
      [([], [body]), ([], [body ++ [';']])] :=
    runRE_orderByRE_success body hb h hsemi
  exact ⟨_, searchRE_cons_found orderByRE 'O'
    ('R' :: 'D' :: 'E' :: 'R' :: ' ' :: 'B' :: 'Y' :: ' ' :: (body ++ [';']))
    [] [body] (by rw [hrun]; rfl)⟩

theorem dropWhile_eq_self_of_false (p : Char → Bool) (l : List Char)
    (h : ∀ c ∈ l, p c = false) : l.dropWhile p = l := by
  cases l with
  | nil => rfl
  | cons c t => simp [List.dropWhile_cons, h c (List.mem_cons_self c t)]

theorem jsTrim_eq_self (l : List Char)
    (h1 : l.dropWhile jsWhitespace = l)
    (h2 : l.reverse.dropWhile jsWhitespace = l.reverse) : jsTrim l = l := by
  unfold jsTrim
  rw [h1, h2, List.reverse_reverse]

theorem jsTrim_of_no_ws (l : List Char)
    (h : ∀ c ∈ l, jsWhitespace c = false) : jsTrim l = l :=
  jsTrim_eq_self l (dropWhile_eq_self_of_false _ _ h)
    (dropWhile_eq_self_of_false _ _ (fun c hc => h c (List.mem_reverse.mp hc)))

theorem jsSplitChar_of_no_sep (sep : Char) (l : List Char)
    (h : ∀ c ∈ l, ¬ c = sep) : jsSplitChar sep l = [l] := by
  induction l with
  | nil => rfl
  | cons c t ih =>
    simp only [jsSplitChar, if_neg (h c (List.mem_cons_self c t))]
    rw [ih (fun x hx => h x (List.mem_cons_of_mem c hx))]

theorem jsSplitWsAux_no_ws (acc : List Char) (l : List Char)
    (h : ∀ c ∈ l, jsWhitespace c = false) :
    jsSplitWsAux acc l = [acc.reverse ++ l] := by
  induction l generalizing acc with
  | nil => simp [jsSplitWsAux]
  | cons c t ih =>
    simp only [jsSplitWsAux,
      show jsWhitespace c = false from h c (List.mem_cons_self c t),
      Bool.false_eq_true, if_false]
    rw [ih (c :: acc) (fun x hx => h x (List.mem_cons_of_mem c hx))]
    simp

theorem jsSplitWs_of_no_ws (l : List Char)
    (h : ∀ c ∈ l, jsWhitespace c = false) : jsSplitWs l = [l] := by
  unfold jsSplitWs
  rw [jsSplitWsAux_no_ws [] l h]
  rfl

theorem parseOrderItem_no_ws (l : List Char)
    (h : ∀ c ∈ l, jsWhitespace c = false) :
    parseOrderItem l = { column := String.mk l, direction := "ASC" } := by
  unfold parseOrderItem
  simp only [jsTrim_of_no_ws l h, jsSplitWs_of_no_ws l h]
  rfl

theorem parseSQL_where_frame (body : List Char) (hb : body ≠ [])
    (hnw : ∀ c ∈ body, jsWhitespace c = false) :
    parseSQL (String.mk ("SELECT a FROM T WHERE ".data ++ (body ++ [';']))) =
      some { operation := "SELECT", tables := ["T"], columns := ["a"],
             conditions := [String.mk (body ++ [';'])], joins := [],
             groupBy := [], orderBy := [], having := [] } := by
  have hnwB : ∀ c ∈ body ++ [';'], jsWhitespace c = false := by
    intro c hc
    rcases List.mem_append.mp hc with hc | hc
    · exact hnw c hc
    · rw [List.mem_singleton.mp hc]
      decide
  have htrim : jsTrim ("SELECT a FROM T WHERE ".data ++ (body ++ [';'])) =
      "SELECT a FROM T WHERE ".data ++ (body ++ [';']) := by
    refine jsTrim_eq_self _ rfl ?_
    rw [List.reverse_append, List.reverse_append, List.reverse_singleton]
    rfl
  have hbegin : beginsWith ("SELECT".data)
      (("SELECT a FROM T WHERE ".data ++ (body ++ [';'])).map Char.toUpper) = true := by
    rw [show "SELECT a FROM T WHERE ".data ++ (body ++ [';']) =
          "SELECT".data ++ (" a FROM T WHERE ".data ++ (body ++ [';'])) from rfl,
        List.map_append]
    rfl
  obtain ⟨m1, hsel0⟩ := searchRE_selectRE_at (" T WHERE ".data ++ (body ++ [';']))
  have hsel : searchRE selectRE ("SELECT a FROM T WHERE ".data ++ (body ++ [';'])) =
      some (m1, " T WHERE ".data ++ (body ++ [';']), [['a']]) := hsel0
  obtain ⟨m2, hfrom0⟩ := searchRE_fromRE_where_at (body ++ [';'])
  have hfrom : searchRE fromRE ("SELECT a FROM T WHERE ".data ++ (body ++ [';'])) =
      some (m2, ' ' :: (body ++ [';']), [['T']]) := hfrom0
  obtain ⟨m3, hwh0⟩ := searchRE_whereRE_key body hb hnwB
  have hwh : searchRE whereRE ("SELECT a FROM T WHERE ".data ++ (body ++ [';'])) =
      some (m3, [], [body ++ [';']]) := hwh0
  have hgrp : searchRE groupByRE
      ("SELECT a FROM T WHERE ".data ++ (body ++ [';'])) = none :=
    searchRE_none_of groupByRE runRE_groupByRE_nil (body ++ [';']) hnwB
  have hord : searchRE orderByRE
      ("SELECT a FROM T WHERE ".data ++ (body ++ [';'])) = none :=
    searchRE_none_of orderByRE runRE_orderByRE_nil (body ++ [';']) hnwB
  have hhav : searchRE havingRE
      ("SELECT a FROM T WHERE ".data ++ (body ++ [';'])) = none :=
    searchRE_none_of havingRE runRE_havingRE_nil (body ++ [';']) hnwB
  have hjsearch : searchRE joinRE
      ("SELECT a FROM T WHERE ".data ++ (body ++ [';'])) = none :=
    searchRE_none_of joinRE runRE_joinRE_nil (body ++ [';']) hnwB
  have hjoin : jsMatchAll joinRE
      ("SELECT a FROM T WHERE ".data ++ (body ++ [';'])) = [] := by
    simp only [jsMatchAll, matchAllAux, hjsearch]
  have htb : jsTrim (body ++ [';']) = body ++ [';'] := jsTrim_of_no_ws _ hnwB
  have hcols : (if (['a'] : List Char) = "*".data then (["*"] : List String)
      else (jsSplitChar ',' ['a']).map cleanColumn) = ["a"] := by decide
  have htabs : (jsSplitChar ',' ['T']).map cleanTable = ["T"] := by decide
  have hdata : (String.mk ("SELECT a FROM T WHERE ".data ++ (body ++ [';']))).data =
      "SELECT a FROM T WHERE ".data ++ (body ++ [';']) := rfl
  simp only [parseSQL, hdata, htrim, hbegin, if_true, hsel, hfrom, hwh,
    hgrp, hord, hhav, hjoin, htb, List.filterMap_nil,
    show capAt ([['a']] : List (List Char)) 0 = ['a'] from rfl,
    show capAt ([['T']] : List (List Char)) 0 = ['T'] from rfl,
    show capAt ([body ++ [';']] : List (List Char)) 0 = body ++ [';'] from rfl,
    hcols, htabs]


theorem parseSQL_group_frame (body : List Char) (hb : body ≠ [])
    (hnw : ∀ c ∈ body, jsWhitespace c = false)
    (hnc : ∀ c ∈ body, ¬ c = ',') :
    parseSQL (String.mk ("SELECT a FROM T GROUP BY ".data ++ (body ++ [';']))) =
      some { operation := "SELECT", tables := ["T"], columns := ["a"],
             conditions := [], joins := [],
             groupBy := [String.mk (body ++ [';'])], orderBy := [], having := [] } := by
  have hnwB : ∀ c ∈ body ++ [';'], jsWhitespace c = false := by
    intro c hc
    rcases List.mem_append.mp hc with hc | hc
    · exact hnw c hc
    · rw [List.mem_singleton.mp hc]
      decide
  have hncB : ∀ c ∈ body ++ [';'], ¬ c = ',' := by
    intro c hc
    rcases List.mem_append.mp hc with hc | hc
    · exact hnc c hc
    · rw [List.mem_singleton.mp hc]
      decide
  have htrim : jsTrim ("SELECT a FROM T GROUP BY ".data ++ (body ++ [';'])) =
      "SELECT a FROM T GROUP BY ".data ++ (body ++ [';']) := by
    refine jsTrim_eq_self _ rfl ?_
    rw [List.reverse_append, List.reverse_append, List.reverse_singleton]
    rfl
  have hbegin : beginsWith ("SELECT".data)
      (("SELECT a FROM T GROUP BY ".data ++ (body ++ [';'])).map Char.toUpper) = true := by
    rw [show "SELECT a FROM T GROUP BY ".data ++ (body ++ [';']) =
          "SELECT".data ++ (" a FROM T GROUP BY ".data ++ (body ++ [';'])) from rfl,
        List.map_append]
    rfl
  obtain ⟨m1, hsel0⟩ := searchRE_selectRE_at (" T GROUP BY ".data ++ (body ++ [';']))
  have hsel : searchRE selectRE ("SELECT a FROM T GROUP BY ".data ++ (body ++ [';'])) =
      some (m1, " T GROUP BY ".data ++ (body ++ [';']), [['a']]) := hsel0
  obtain ⟨m2, hfrom0⟩ := searchRE_fromRE_group_at (body ++ [';'])
  have hfrom : searchRE fromRE ("SELECT a FROM T GROUP BY ".data ++ (body ++ [';'])) =
      some (m2, ' ' :: (body ++ [';']), [['T']]) := hfrom0
  obtain ⟨m3, hgr0⟩ := searchRE_groupByRE_key body hb hnwB
  have hgrp : searchRE groupByRE ("SELECT a FROM T GROUP BY ".data ++ (body ++ [';'])) =
      some (m3, [], [body ++ [';']]) := hgr0
  have hwh : searchRE whereRE
      ("SELECT a FROM T GROUP BY ".data ++ (body ++ [';'])) = none :=
    searchRE_none_of whereRE runRE_whereRE_nil (body ++ [';']) hnwB
  have hord : searchRE orderByRE
      ("SELECT a FROM T GROUP BY ".data ++ (body ++ [';'])) = none :=
    searchRE_none_of orderByRE runRE_orderByRE_nil (body ++ [';']) hnwB
  have hhav : searchRE havingRE
      ("SELECT a FROM T GROUP BY ".data ++ (body ++ [';'])) = none :=
    searchRE_none_of havingRE runRE_havingRE_nil (body ++ [';']) hnwB
  have hjsearch : searchRE joinRE
      ("SELECT a FROM T GROUP BY ".data ++ (body ++ [';'])) = none :=
    searchRE_none_of joinRE runRE_joinRE_nil (body ++ [';']) hnwB
  have hjoin : jsMatchAll joinRE
      ("SELECT a FROM T GROUP BY ".data ++ (body ++ [';'])) = [] := by
    simp only [jsMatchAll, matchAllAux, hjsearch]
  have htb : jsTrim (body ++ [';']) = body ++ [';'] := jsTrim_of_no_ws _ hnwB
  have hsplitg : jsSplitChar ',' (body ++ [';']) = [body ++ [';']] :=
    jsSplitChar_of_no_sep ',' _ hncB
  have hcols : (if (['a'] : List Char) = "*".data then (["*"] : List String)
      else (jsSplitChar ',' ['a']).map cleanColumn) = ["a"] := by decide
  have htabs : (jsSplitChar ',' ['T']).map cleanTable = ["T"] := by decide
  have hdata : (String.mk ("SELECT a FROM T GROUP BY ".data ++ (body ++ [';']))).data =
      "SELECT a FROM T GROUP BY ".data ++ (body ++ [';']) := rfl
  simp only [parseSQL, hdata, htrim, hbegin, if_true, hsel, hfrom, hwh, hgrp,
    hord, hhav, hjoin, htb, hsplitg, List.map_cons, List.map_nil,
    List.filterMap_nil,
    show capAt ([['a']] : List (List Char)) 0 = ['a'] from rfl,
    show capAt ([['T']] : List (List Char)) 0 = ['T'] from rfl,
    show capAt ([body ++ [';']] : List (List Char)) 0 = body ++ [';'] from rfl,
    hcols, htabs]


theorem parseSQL_having_frame (body : List Char) (hb : body ≠ [])
    (hnw : ∀ c ∈ body, jsWhitespace c = false) :
    parseSQL (String.mk ("SELECT a FROM T HAVING ".data ++ (body ++ [';']))) =
      some { operation := "SELECT", tables := ["T"], columns := ["a"],
             conditions := [], joins := [],
             groupBy := [], orderBy := [], having := [String.mk (body ++ [';'])] } := by
  have hnwB : ∀ c ∈ body ++ [';'], jsWhitespace c = false := by
    intro c hc
    rcases List.mem_append.mp hc with hc | hc
    · exact hnw c hc
    · rw [List.mem_singleton.mp hc]
      decide
  have htrim : jsTrim ("SELECT a FROM T HAVING ".data ++ (body ++ [';'])) =
      "SELECT a FROM T HAVING ".data ++ (body ++ [';']) := by
    refine jsTrim_eq_self _ rfl ?_
    rw [List.reverse_append, List.reverse_append, List.reverse_singleton]
    rfl
  have hbegin : beginsWith ("SELECT".data)
      (("SELECT a FROM T HAVING ".data ++ (body ++ [';'])).map Char.toUpper) = true := by
    rw [show "SELECT a FROM T HAVING ".data ++ (body ++ [';']) =
          "SELECT".data ++ (" a FROM T HAVING ".data ++ (body ++ [';'])) from rfl,
        List.map_append]
    rfl
  obtain ⟨m1, hsel0⟩ := searchRE_selectRE_at (" T HAVING ".data ++ (body ++ [';']))
  have hsel : searchRE selectRE ("SELECT a FROM T HAVING ".data ++ (body ++ [';'])) =
      some (m1, " T HAVING ".data ++ (body ++ [';']), [['a']]) := hsel0
  obtain ⟨m2, hfrom0⟩ := searchRE_fromRE_having_at (body ++ [';'])
  have hfrom : searchRE fromRE ("SELECT a FROM T HAVING ".data ++ (body ++ [';'])) =
      some (m2, ' ' :: (body ++ [';']), [['T']]) := hfrom0
  obtain ⟨m3, hhv0⟩ := searchRE_havingRE_key body hb hnwB
  have hhav : searchRE havingRE ("SELECT a FROM T HAVING ".data ++ (body ++ [';'])) =
      some (m3, [], [body ++ [';']]) := hhv0
  have hwh : searchRE whereRE
      ("SELECT a FROM T HAVING ".data ++ (body ++ [';'])) = none :=
    searchRE_none_of whereRE runRE_whereRE_nil (body ++ [';']) hnwB
  have hgrp : searchRE groupByRE
      ("SELECT a FROM T HAVING ".data ++ (body ++ [';'])) = none :=
    searchRE_none_of groupByRE runRE_groupByRE_nil (body ++ [';']) hnwB
  have hord : searchRE orderByRE
      ("SELECT a FROM T HAVING ".data ++ (body ++ [';'])) = none :=
    searchRE_none_of orderByRE runRE_orderByRE_nil (body ++ [';']) hnwB
  have hjsearch : searchRE joinRE
      ("SELECT a FROM T HAVING ".data ++ (body ++ [';'])) = none :=
    searchRE_none_of joinRE runRE_joinRE_nil (body ++ [';']) hnwB
  have hjoin : jsMatchAll joinRE
      ("SELECT a FROM T HAVING ".data ++ (body ++ [';'])) = [] := by
    simp only [jsMatchAll, matchAllAux, hjsearch]
  have htb : jsTrim (body ++ [';']) = body ++ [';'] := jsTrim_of_no_ws _ hnwB
  have hcols : (if (['a'] : List Char) = "*".data then (["*"] : List String)
      else (jsSplitChar ',' ['a']).map cleanColumn) = ["a"] := by decide
  have htabs : (jsSplitChar ',' ['T']).map cleanTable = ["T"] := by decide
  have hdata : (String.mk ("SELECT a FROM T HAVING ".data ++ (body ++ [';']))).data =
      "SELECT a FROM T HAVING ".data ++ (body ++ [';']) := rfl
  simp only [parseSQL, hdata, htrim, hbegin, if_true, hsel, hfrom, hwh, hgrp,
    hord, hhav, hjoin, htb, List.filterMap_nil,
    show capAt ([['a']] : List (List Char)) 0 = ['a'] from rfl,
    show capAt ([['T']] : List (List Char)) 0 = ['T'] from rfl,
    show capAt ([body ++ [';']] : List (List Char)) 0 = body ++ [';'] from rfl,
    hcols, htabs]


theorem parseSQL_order_frame (body : List Char) (hb : body ≠ [])
    (hnw : ∀ c ∈ body, jsWhitespace c = false)
    (hns : ∀ c ∈ body, ¬ c = ';') (hnc : ∀ c ∈ body, ¬ c = ',') :
    parseSQL (String.mk ("SELECT a FROM T ORDER BY ".data ++ (body ++ [';']))) =
      some { operation := "SELECT", tables := ["T"], columns := ["a"],
             conditions := [], joins := [], groupBy := [],
             orderBy := [{ column := String.mk body, direction := "ASC" }],
             having := [] } := by
  have hnwB : ∀ c ∈ body ++ [';'], jsWhitespace c = false := by
    intro c hc
    rcases List.mem_append.mp hc with hc | hc
    · exact hnw c hc
    · rw [List.mem_singleton.mp hc]
      decide
  have htrim : jsTrim ("SELECT a FROM T ORDER BY ".data ++ (body ++ [';'])) =
      "SELECT a FROM T ORDER BY ".data ++ (body ++ [';']) := by
    refine jsTrim_eq_self _ rfl ?_
    rw [List.reverse_append, List.reverse_append, List.reverse_singleton]
    rfl
  have hbegin : beginsWith ("SELECT".data)
      (("SELECT a FROM T ORDER BY ".data ++ (body ++ [';'])).map Char.toUpper) = true := by
    rw [show "SELECT a FROM T ORDER BY ".data ++ (body ++ [';']) =
          "SELECT".data ++ (" a FROM T ORDER BY ".data ++ (body ++ [';'])) from rfl,
        List.map_append]
    rfl
  obtain ⟨m1, hsel0⟩ := searchRE_selectRE_at (" T ORDER BY ".data ++ (body ++ [';']))
  have hsel : searchRE selectRE ("SELECT a FROM T ORDER BY ".data ++ (body ++ [';'])) =
      some (m1, " T ORDER BY ".data ++ (body ++ [';']), [['a']]) := hsel0
  obtain ⟨m2, hfrom0⟩ := searchRE_fromRE_order_at (body ++ [';'])
  have hfrom : searchRE fromRE ("SELECT a FROM T ORDER BY ".data ++ (body ++ [';'])) =
      some (m2, ' ' :: (body ++ [';']), [['T']]) := hfrom0
  obtain ⟨m3, hor0⟩ := searchRE_orderByRE_key body hb hnw hns
  have hord : searchRE orderByRE ("SELECT a FROM T ORDER BY ".data ++ (body ++ [';'])) =
      some (m3, [], [body]) := hor0
  have hwh : searchRE whereRE
      ("SELECT a FROM T ORDER BY ".data ++ (body ++ [';'])) = none :=
    searchRE_none_of whereRE runRE_whereRE_nil (body ++ [';']) hnwB
  have hgrp : searchRE groupByRE
      ("SELECT a FROM T ORDER BY ".data ++ (body ++ [';'])) = none :=
    searchRE_none_of groupByRE runRE_groupByRE_nil (body ++ [';']) hnwB
  have hhav : searchRE havingRE
      ("SELECT a FROM T ORDER BY ".data ++ (body ++ [';'])) = none :=
    searchRE_none_of havingRE runRE_havingRE_nil (body ++ [';']) hnwB
  have hjsearch : searchRE joinRE
      ("SELECT a FROM T ORDER BY ".data ++ (body ++ [';'])) = none :=
    searchRE_none_of joinRE runRE_joinRE_nil (body ++ [';']) hnwB
  have hjoin : jsMatchAll joinRE
      ("SELECT a FROM T ORDER BY ".data ++ (body ++ [';'])) = [] := by
    simp only [jsMatchAll, matchAllAux, hjsearch]
  have hsplito : jsSplitChar ',' body = [body] := jsSplitChar_of_no_sep ',' _ hnc
  have hpoi : parseOrderItem body = { column := String.mk body, direction := "ASC" } :=
    parseOrderItem_no_ws body hnw
  have hcols : (if (['a'] : List Char) = "*".data then (["*"] : List String)
      else (jsSplitChar ',' ['a']).map cleanColumn) = ["a"] := by decide
  have htabs : (jsSplitChar ',' ['T']).map cleanTable = ["T"] := by decide
  have hdata : (String.mk ("SELECT a FROM T ORDER BY ".data ++ (body ++ [';']))).data =
      "SELECT a FROM T ORDER BY ".data ++ (body ++ [';']) := rfl
  simp only [parseSQL, hdata, htrim, hbegin, if_true, hsel, hfrom, hwh, hgrp,
    hord, hhav, hjoin, hsplito, hpoi, List.map_cons, List.map_nil,
    List.filterMap_nil,
    show capAt ([['a']] : List (List Char)) 0 = ['a'] from rfl,
    show capAt ([['T']] : List (List Char)) 0 = ['T'] from rfl,
    show capAt ([body] : List (List Char)) 0 = body from rfl,
    hcols, htabs]

theorem render_where_record (x : List Char) :
    convertToRelationalAlgebra
      { operation := "SELECT", tables := ["T"], columns := ["a"],
        conditions := [String.mk x], joins := [], groupBy := [],
        orderBy := [], having := [] } =
      String.mk ("π[a](σ[".data ++ (x ++ "](T))".data)) := by
  refine congrArg String.mk ?_
  simp only [List.append_assoc]
  rfl

theorem render_group_record (x : List Char) :
    convertToRelationalAlgebra
      { operation := "SELECT", tables := ["T"], columns := ["a"],
        conditions := [], joins := [], groupBy := [String.mk x],
        orderBy := [], having := [] } =
      String.mk ("π[a](γ[".data ++ (x ++ "](T))".data)) := by
  refine congrArg String.mk ?_
  simp only [List.append_assoc]
  rfl

theorem render_having_record (x : List Char) :
    convertToRelationalAlgebra
      { operation := "SELECT", tables := ["T"], columns := ["a"],
        conditions := [], joins := [], groupBy := [],
        orderBy := [], having := [String.mk x] } =
      String.mk ("π[a](σ[".data ++ (x ++ "](T))".data)) := by
  refine congrArg String.mk ?_
  simp only [List.append_assoc]
  rfl

theorem render_order_record (x : List Char) :
    convertToRelationalAlgebra
      { operation := "SELECT", tables := ["T"], columns := ["a"],
        conditions := [], joins := [], groupBy := [],
        orderBy := [{ column := String.mk x, direction := "ASC" }],
        having := [] } =
      String.mk ("τ[".data ++ (x ++ " ASC](π[a](T))".data)) := by
  refine congrArg String.mk ?_
  simp only [List.append_assoc]
  rfl

/-- Claim C9: only the ORDER BY capture stops at a terminating
semicolon.  For every non-empty clause body of ordinary characters (no
whitespace, no semicolon, no comma), a query ending in ";" whose last
clause is WHERE, GROUP BY or HAVING keeps the trailing ";" inside that
clause's captured text, so it appears verbatim inside the rendered
σ[...] or γ[...] brackets; under ORDER BY the capture stops at the
semicolon and no ";" reaches the τ[...] brackets. -/
theorem claim9_trailing_semicolon :
    (∀ body : List Char, body ≠ [] →
      (∀ c ∈ body, jsWhitespace c = false) →
      (∀ c ∈ body, ¬ c = ';') → (∀ c ∈ body, ¬ c = ',') →
      parseAndRender (String.mk ("SELECT a FROM T WHERE ".data ++ (body ++ [';']))) =
        some (String.mk ("π[a](σ[".data ++ ((body ++ [';']) ++ "](T))".data)))) ∧
    (∀ body : List Char, body ≠ [] →
      (∀ c ∈ body, jsWhitespace c = false) →
      (∀ c ∈ body, ¬ c = ';') → (∀ c ∈ body, ¬ c = ',') →
      parseAndRender (String.mk ("SELECT a FROM T GROUP BY ".data ++ (body ++ [';']))) =
        some (String.mk ("π[a](γ[".data ++ ((body ++ [';']) ++ "](T))".data)))) ∧
    (∀ body : List Char, body ≠ [] →
      (∀ c ∈ body, jsWhitespace c = false) →
      (∀ c ∈ body, ¬ c = ';') → (∀ c ∈ body, ¬ c = ',') →
      parseAndRender (String.mk ("SELECT a FROM T HAVING ".data ++ (body ++ [';']))) =
        some (String.mk ("π[a](σ[".data ++ ((body ++ [';']) ++ "](T))".data)))) ∧
    (∀ body : List Char, body ≠ [] →
      (∀ c ∈ body, jsWhitespace c = false) →
      (∀ c ∈ body, ¬ c = ';') → (∀ c ∈ body, ¬ c = ',') →
      parseAndRender (String.mk ("SELECT a FROM T ORDER BY ".data ++ (body ++ [';']))) =
        some (String.mk ("τ[".data ++ (body ++ " ASC](π[a](T))".data)))) := by
  refine ⟨?_, ?_, ?_, ?_⟩
  · intro body hb hnw _hns _hnc
    rw [parseAndRender, parseSQL_where_frame body hb hnw, Option.map_some',
      render_where_record (body ++ [';'])]
  · intro body hb hnw _hns hnc
    rw [parseAndRender, parseSQL_group_frame body hb hnw hnc, Option.map_some',
      render_group_record (body ++ [';'])]
  · intro body hb hnw _hns _hnc
    rw [parseAndRender, parseSQL_having_frame body hb hnw, Option.map_some',
      render_having_record (body ++ [';'])]
  · intro body hb hnw hns hnc
    rw [parseAndRender, parseSQL_order_frame body hb hnw hns hnc, Option.map_some',
      render_order_record body]

/-- Witness for C9 at one-character clause bodies. -/
theorem claim9_trailing_semicolon_witness :
    parseAndRender "SELECT a FROM T WHERE b;" = some "π[a](σ[b;](T))" ∧
    parseAndRender "SELECT a FROM T GROUP BY g;" = some "π[a](γ[g;](T))" ∧
    parseAndRender "SELECT a FROM T HAVING h;" = some "π[a](σ[h;](T))" ∧
    parseAndRender "SELECT a FROM T ORDER BY c;" = some "τ[c ASC](π[a](T))" := by
  have h := claim9_trailing_semicolon
  refine ⟨?_, ?_, ?_, ?_⟩
  · have e := h.1 ['b'] (by decide) (by decide) (by decide) (by decide)
    rw [show String.mk ("SELECT a FROM T WHERE ".data ++ (['b'] ++ [';'])) =
          "SELECT a FROM T WHERE b;" from by decide] at e
    rw [e]
    decide
  · have e := h.2.1 ['g'] (by decide) (by decide) (by decide) (by decide)
    rw [show String.mk ("SELECT a FROM T GROUP BY ".data ++ (['g'] ++ [';'])) =
          "SELECT a FROM T GROUP BY g;" from by decide] at e
    rw [e]
    decide
  · have e := h.2.2.1 ['h'] (by decide) (by decide) (by decide) (by decide)
    rw [show String.mk ("SELECT a FROM T HAVING ".data ++ (['h'] ++ [';'])) =
          "SELECT a FROM T HAVING h;" from by decide] at e
    rw [e]
    decide
  · have e := h.2.2.2 ['c'] (by decide) (by decide) (by decide) (by decide)
    rw [show String.mk ("SELECT a FROM T ORDER BY ".data ++ (['c'] ++ [';'])) =
          "SELECT a FROM T ORDER BY c;" from by decide] at e
    rw [e]
    decide

end RelAlg
